import Mathlib

/-!
Verification development for the image-processing workflow engine of the
`code_storm_final_backend` repository.

The embedding models:
  * `app/agent/workflow.py`  — the LangGraph pipeline (validation, quality
    assessment, content classification, routing, preprocessing, extraction,
    generation, finalization) as pure Lean functions over an explicit state
    record, with all external services (PIL, OpenCV, Gemini, Google Vision,
    EasyOCR, Tesseract, `json.loads`, `float(...)` on strings) supplied by an
    environment record of oracles, so that every theorem quantifies over all
    possible behaviours of those services.
  * `app/services/enhanced_document_processor.py` — the chunking engine,
    the parallel chunk processor and the result merger.

Modelling conventions:
  * Python `str` is `List Char`; Python `bytes` is `List Nat`.
  * Python floats are modelled as exact rationals (`ℚ`); in particular the
    literal `0.7` used for the minimum-chunk-size bound is modelled as `7/10`.
  * Python `None`-able fields are `Option`; `try/except` is modelled with
    `Except` carrying the exception message, and handlers reproduce the
    in-place mutations performed before the raise.
  * The specific regular expressions of the source are modelled by equivalent
    explicit scans over `List Char` (each is noted at its definition).
  * Functions that diverge in Python for degenerate parameters
    (`chunk_size = 0`, `max_concurrency = 0`) use fuel / a guard; all claims
    concern the non-degenerate parameters.
-/

namespace StudyHelper

/-! ### Basic Python string semantics -/

/-- ASCII lower-casing of one character (model of `str.lower` restricted to
the ASCII range, which is all the source's keyword tests need). -/
def lowerChar (c : Char) : Char :=
  if 'A' ≤ c ∧ c ≤ 'Z' then Char.ofNat (c.toNat + 32) else c

def asciiLower (s : List Char) : List Char := s.map lowerChar

def isWs (c : Char) : Bool := c = ' ' ∨ c = '\t' ∨ c = '\n' ∨ c = '\r'

def isDigitChar (c : Char) : Bool := '0' ≤ c ∧ c ≤ '9'

def isAlphaChar (c : Char) : Bool := ('a' ≤ c ∧ c ≤ 'z') ∨ ('A' ≤ c ∧ c ≤ 'Z')

def isAlnumChar (c : Char) : Bool := isAlphaChar c || isDigitChar c

def isUpperAZ (c : Char) : Bool := 'A' ≤ c ∧ c ≤ 'Z'

/-- `str.strip()`: remove leading and trailing whitespace. -/
def pyStrip (s : List Char) : List Char :=
  ((s.dropWhile isWs).reverse.dropWhile isWs).reverse

/-- Does `p` occur at the head of `l`? (helper for substring search). -/
def headMatches : List Char → List Char → Bool
  | _, [] => true
  | [], _ :: _ => false
  | c :: cs, p :: ps => c = p && headMatches cs ps

/-- Python `pat in l` (contiguous substring test). -/
def strContains : List Char → List Char → Bool
  | [], pat => pat.isEmpty
  | l@(_ :: rest), pat => headMatches l pat || strContains rest pat

/-- Python `s.split(c)` for a one-character separator. -/
def splitOnChar (sep : Char) : List Char → List (List Char)
  | [] => [[]]
  | c :: rest =>
    let r := splitOnChar sep rest
    if c = sep then [] :: r
    else match r with
      | [] => [[c]]
      | h :: t => (c :: h) :: t

/-- Recursive worker for `splitOnSep` (the separator is non-empty,
split as head and tail). -/
def splitOnSepGo (s : Char) (ss : List Char) : List Char → List (List Char)
  | [] => [[]]
  | l@(c :: rest) =>
    if headMatches l (s :: ss) then
      [] :: splitOnSepGo s ss (rest.drop ss.length)
    else
      match splitOnSepGo s ss rest with
      | [] => [[c]]
      | h :: t => (c :: h) :: t
termination_by l => l.length
decreasing_by
  · simp only [List.length_drop, List.length_cons]; omega
  · simp [List.length_cons]

/-- Python `s.split(sep)` for a multi-character separator (used for
`'. '` and `'\n\n'`; `split('')` raises in Python and never occurs here). -/
def splitOnSep (sep : List Char) (l : List Char) : List (List Char) :=
  match sep with
  | [] => [l]
  | s :: ss => splitOnSepGo s ss l

/-- Python `s.split()` (split on whitespace runs, no empty pieces). -/
def pySplitWs (s : List Char) : List (List Char) :=
  (splitOnChar ' ' ((s.map (fun c => if isWs c then ' ' else c)))).filter (· ≠ [])

/-- Python `s.replace(pat, rep, 1)`: replace the first occurrence only. -/
def replaceFirst (l pat rep : List Char) : List Char :=
  match l with
  | [] => []
  | c :: rest =>
    if headMatches l pat ∧ pat ≠ [] then rep ++ l.drop pat.length
    else c :: replaceFirst rest pat rep

/-- Decimal rendering of a natural number (for `f"chunk_{i}"` etc.). -/
def natRepr (n : Nat) : List Char := (Nat.toDigits 10 n)

/-- Python slice index normalisation: negative indices count from the end
and are clamped at 0; positive indices are clamped at the length. -/
def pyIndex (len : Nat) (i : Int) : Nat :=
  if i < 0 then ((len : Int) + i).toNat else min i.toNat len

/-- Python `l[a:b]` with full negative-index semantics. -/
def pySlice (l : List Char) (a b : Int) : List Char :=
  let a' := pyIndex l.length a
  let b' := pyIndex l.length b
  (l.drop a').take (b' - a')

/-- Does `sub` occur in `l` at position `i`? -/
def matchAt (l sub : List Char) (i : Nat) : Bool :=
  headMatches (l.drop i) sub && sub ≠ []

/-- Auxiliary downward scan for `str.rfind`. -/
def rfindAux (l sub : List Char) (s : Nat) : Nat → Option Nat
  | 0 => if s = 0 && matchAt l sub 0 then some 0 else none
  | i + 1 =>
    if s ≤ i + 1 && matchAt l sub (i + 1) then some (i + 1)
    else rfindAux l sub s i

/-- Python `text.rfind(sub, s, e)`: the greatest `i` with `s ≤ i`,
`i + len(sub) ≤ e` and `sub` occurring at `i`; `none` models `-1`. -/
def rfind (l sub : List Char) (s e : Nat) : Option Nat :=
  if sub.length ≤ e then rfindAux l sub s (e - sub.length) else none

theorem rfindAux_bounds {l sub : List Char} {s i bp : Nat}
    (h : rfindAux l sub s i = some bp) : s ≤ bp ∧ bp ≤ i := by
  induction i with
  | zero =>
    simp only [rfindAux] at h
    by_cases hc : s = 0 && matchAt l sub 0
    · simp only [Bool.and_eq_true, decide_eq_true_eq] at hc
      obtain ⟨h1, h2⟩ := hc
      simp [h1, h2] at h
      omega
    · simp [hc] at h
  | succ n ih =>
    simp only [rfindAux] at h
    by_cases hc : s ≤ n + 1 && matchAt l sub (n + 1)
    · simp [hc] at h
      simp only [Bool.and_eq_true, decide_eq_true_eq] at hc
      omega
    · simp only [hc, Bool.false_eq_true, if_false] at h
      have := ih h
      omega

theorem rfind_bounds {l sub : List Char} {s e bp : Nat}
    (h : rfind l sub s e = some bp) : s ≤ bp ∧ bp + sub.length ≤ e := by
  unfold rfind at h
  by_cases hl : sub.length ≤ e
  · simp only [hl, if_true] at h
    have := rfindAux_bounds h
    omega
  · simp [hl] at h

/-! ### Dynamic Python values (results of `json.loads`) -/

/-- A Python/JSON value as it flows out of `json.loads` and into the lenient
response parsers. -/
inductive PyVal where
  | pstr : List Char → PyVal
  | pnum : ℚ → PyVal
  | pbool : Bool → PyVal
  | pnone : PyVal
  | plist : List PyVal → PyVal
  | pdict : List (List Char × PyVal) → PyVal

/-- Single-quote character, used for Python `repr` of strings. -/
def sq : Char := Char.ofNat 39

mutual
/-- Model of Python `str(value)` for the values stored in `quality_issues`
(a list is rendered `[e1, e2]` with quoted strings, matching `str(list)`;
numbers are rendered from their rational value). -/
def pyRepr : PyVal → List Char
  | .pstr s => sq :: s ++ [sq]
  | .pnum q => (toString q.num).data ++ (if q.den = 1 then [] else '/' :: (toString q.den).data)
  | .pbool b => if b then "True".data else "False".data
  | .pnone => "None".data
  | .plist xs => '[' :: pyReprList xs ++ [']']
  | .pdict xs => '<' :: "dict".data ++ ['>'] ++ pyReprKVs xs

def pyReprList : List PyVal → List Char
  | [] => []
  | [x] => pyRepr x
  | x :: y :: t => pyRepr x ++ ", ".data ++ pyReprList (y :: t)

def pyReprKVs : List (List Char × PyVal) → List Char
  | [] => []
  | (k, v) :: t => k ++ ": ".data ++ pyRepr v ++ pyReprKVs t
end

/-- Python truthiness of a value. -/
def pyTruthy : PyVal → Bool
  | .pstr s => ¬ s.isEmpty
  | .pnum q => q ≠ 0
  | .pbool b => b
  | .pnone => false
  | .plist xs => ¬ xs.isEmpty
  | .pdict xs => ¬ xs.isEmpty

/-- Python `len(value)` for sliceable values (0 for the rest, which `len`
would reject; only used on values already known sliceable). -/
def pyLen : PyVal → Nat
  | .pstr s => s.length
  | .plist xs => xs.length
  | .pdict xs => xs.length
  | _ => 0

/-- `dict.get(key, default)`. -/
def pyGet (d : List (List Char × PyVal)) (key : List Char) (dflt : PyVal) : PyVal :=
  match d.find? (fun kv => kv.1 = key) with
  | some kv => kv.2
  | none => dflt

/-- `key in dict`. -/
def pyHasKey (d : List (List Char × PyVal)) (key : List Char) : Bool :=
  (d.find? (fun kv => kv.1 = key)).isSome

/-- `value[:n]` — defined for strings and lists, raises (`.error`) otherwise. -/
def pySliceN (n : Nat) : PyVal → Except (List Char) PyVal
  | .pstr s => .ok (.pstr (s.take n))
  | .plist xs => .ok (.plist (xs.take n))
  | _ => .error "unhashable slice".data

/-- `value.lower()` — defined for strings, raises otherwise. -/
def pyLower : PyVal → Except (List Char) (List Char)
  | .pstr s => .ok (asciiLower s)
  | _ => .error "no attribute lower".data

/-- The substring matched by `re.search(r'\{.*\}', response, re.DOTALL)`:
from the first `\x7b` to the last `\x7d`, when the latter comes after the
former. -/
def extractBraces (s : List Char) : Option (List Char) :=
  match s.findIdx? (· = Char.ofNat 123), rfind s [Char.ofNat 125] 0 s.length with
  | some i, some j => if i < j then some ((s.drop i).take (j + 1 - i)) else none
  | _, _ => none

/-! ### Enumerations and configuration (`app/agent/schemas.py`,
`app/core/config.py`) -/

inductive ImageQuality where
  | high | medium | low
deriving DecidableEq

inductive ContentType where
  | handwritten_text | printed_text | diagram | mixed
deriving DecidableEq

inductive ProcessingTool where
  | trocr | paddleocr | google_vision | gemini_vision | none
deriving DecidableEq

/-- `ImageQuality(value)`: `none` models the `ValueError` branch. -/
def toImageQuality (s : List Char) : Option ImageQuality :=
  if s = "high".data then some .high
  else if s = "medium".data then some .medium
  else if s = "low".data then some .low
  else none

/-- `ContentType(value)`: `none` models the `ValueError` branch. -/
def toContentType (s : List Char) : Option ContentType :=
  if s = "handwritten_text".data then some .handwritten_text
  else if s = "printed_text".data then some .printed_text
  else if s = "diagram".data then some .diagram
  else if s = "mixed".data then some .mixed
  else none

/-- `ContentType.value`. -/
def ctValue : ContentType → List Char
  | .handwritten_text => "handwritten_text".data
  | .printed_text => "printed_text".data
  | .diagram => "diagram".data
  | .mixed => "mixed".data

def MAX_IMAGE_SIZE : Nat := 10 * 1024 * 1024

def SUPPORTED_IMAGE_FORMATS : List (List Char) :=
  ["JPEG".data, "PNG".data, "WEBP".data, "BMP".data, "TIFF".data]

def QUALITY_THRESHOLD : ℚ := 3 / 5

def MIN_TEXT_LENGTH : Nat := 10

/-- The hard-stop score floor `0.2` of `route_processing_node`. -/
def SCORE_FLOOR : ℚ := 1 / 5

def DEFAULT_QUIZ_QUESTIONS : Nat := 5

/-! ### Quiz questions and the workflow state
(`ImageProcessingState` in `app/agent/schemas.py`) -/

/-- A quiz-question dict as built by the workflow (fixed key set; all the
source's constructors populate exactly these keys with strings, except
`options` which is a list of strings). -/
structure QuizQ where
  question : List Char
  question_type : List Char
  options : List (List Char)
  correct_answer : List Char
  explanation : List Char
  difficulty : List Char
  topic : List Char
deriving DecidableEq

/-- Model of `ImageProcessingState`. `quality_issues` is kept as a dynamic
`PyVal` because the JSON path of `_parse_quality_response` can store an
arbitrary sliced JSON value there. -/
structure WState where
  image_path : List Char
  image_data : Option (List Nat)
  user_id : List Char
  start_time : Option ℚ
  processing_time : Option ℚ
  error_message : Option (List Char)
  retry_count : Nat
  quality_score : Option ℚ
  quality_classification : Option ImageQuality
  quality_issues : PyVal
  content_type : Option ContentType
  content_confidence : Option ℚ
  extracted_text : Option (List Char)
  extraction_confidence : Option ℚ
  processing_tool_used : Option ProcessingTool
  summary : Option (List Char)
  explanation : Option (List Char)
  quiz_questions : List QuizQ
  needs_preprocessing : Bool
  should_proceed : Bool
  recommended_action : Option (List Char)

/-- The pydantic defaults of `ImageProcessingState`, with the three
constructor arguments `process_image` passes. -/
def initState (path uid : List Char) (t : ℚ) : WState where
  image_path := path
  image_data := Option.none
  user_id := uid
  start_time := some t
  processing_time := Option.none
  error_message := Option.none
  retry_count := 0
  quality_score := Option.none
  quality_classification := Option.none
  quality_issues := .plist []
  content_type := Option.none
  content_confidence := Option.none
  extracted_text := Option.none
  extraction_confidence := Option.none
  processing_tool_used := Option.none
  summary := Option.none
  explanation := Option.none
  quiz_questions := []
  needs_preprocessing := false
  should_proceed := true
  recommended_action := Option.none

/-! ### External-service environment

All calls that leave the process (PIL, OpenCV, the AI services, the OCR
engines, `json.loads`, `float(str)`) are supplied by this record of oracles;
theorems quantify over it, so they hold for every behaviour of the
external world. -/

/-- Result of `PIL.Image.open`: the detected format and the bytes that
`image.save(buffer, format=image.format)` would produce. -/
structure PILImage where
  format : List Char
  saveBytes : List Nat

/-- Opaque OpenCV image matrix. -/
structure ImgMat where
  pixels : List Nat

structure PipeEnv where
  openBytes : List Nat → Except (List Char) PILImage
  openPath : List Char → Except (List Char) PILImage
  geminiVision : List Nat → Except (List Char) (List Char)
  geminiText : List Char → Except (List Char) (List Char)
  visionAvailable : Bool
  googleVision : List Nat → Except (List Char) (Option (List Char))
  easyocr : List Nat → Except (List Char) (List Char)
  tesseract : List Nat → Except (List Char) (List Char)
  cvDecode : List Nat → Except (List Char) ImgMat
  sharpen : ImgMat → ImgMat
  contrastScale : ImgMat → ImgMat
  medianBlur : ImgMat → ImgMat
  pngEncode : ImgMat → List Nat
  jsonLoads : List Char → Except (List Char) (List (List Char × PyVal))
  strFloat : List Char → Except (List Char) ℚ

/-- `float(value)` on a dynamic value: numbers and bools convert, strings go
through the `strFloat` oracle, everything else raises `TypeError`. -/
def pyFloat (env : PipeEnv) : PyVal → Except (List Char) ℚ
  | .pnum q => .ok q
  | .pbool b => .ok (if b then 1 else 0)
  | .pstr s => env.strFloat s
  | _ => .error "float conversion".data

def clamp01 (q : ℚ) : ℚ := min 1 (max 0 q)

/-! ### Number extraction for the text fallback parser

Model of the first match of `re.findall(r'0\.\d+|\d+\.\d+', line)`:
scan positions left to right; at each position try `0\.\d+` first, then
`\d+\.\d+` (in which the dot must follow the maximal digit run, since the
regex cannot backtrack into more digits). -/

def digitsVal (ds : List Char) : Nat :=
  ds.foldl (fun a c => a * 10 + (c.toNat - 48)) 0

def fracOf (ds : List Char) : ℚ :=
  (digitsVal ds : ℚ) / ((10 : ℚ) ^ ds.length)

def tryAlt2 (l : List Char) : Option ℚ :=
  let ds := l.takeWhile isDigitChar
  if ds = [] then Option.none
  else
    match l.drop ds.length with
    | '.' :: r =>
      let fs := r.takeWhile isDigitChar
      if fs ≠ [] then some ((digitsVal ds : ℚ) + fracOf fs) else Option.none
    | _ => Option.none

def tryNumAt (l : List Char) : Option ℚ :=
  match l with
  | '0' :: '.' :: r =>
    let fs := r.takeWhile isDigitChar
    if fs ≠ [] then some (fracOf fs) else tryAlt2 l
  | _ => tryAlt2 l

def findNumber : List Char → Option ℚ
  | [] => Option.none
  | l@(_ :: rest) =>
    match tryNumAt l with
    | some q => some q
    | Option.none => findNumber rest

/-! ### `_parse_quality_response` -/

structure QualityParse where
  score : ℚ
  classification : List Char
  issues : PyVal
  recommendations : PyVal

/-- The JSON branch of `_parse_quality_response`; any raise inside the `try`
(`json.loads`, `float`, `.lower()` on a non-string, slicing a non-sliceable)
is an `.error`.  A missing `\x7b...\x7d` region is also routed to `.error`
because in the source it falls through to the same text fallback. -/
def parseQualityJSON (env : PipeEnv) (resp : List Char) :
    Except (List Char) QualityParse :=
  match extractBraces resp with
  | Option.none => .error "no json object".data
  | some sub =>
    (env.jsonLoads sub).bind (fun d =>
      (pyFloat env (pyGet d "score".data (.pnum (1 / 2)))).bind (fun sv =>
        (pyLower (pyGet d "classification".data (.pstr "MEDIUM".data))).bind (fun cls =>
          (pySliceN 5 (pyGet d "issues".data (.plist []))).bind (fun iss =>
            (pySliceN 5 (pyGet d "recommendations".data (.plist []))).bind (fun recs =>
              .ok { score := clamp01 sv, classification := cls,
                    issues := iss, recommendations := recs })))))

/-- The keyword/number text fallback of `_parse_quality_response` (its inner
`try` cannot raise, so the final static-default branch of the source is
dead code and not modelled). -/
def parseQualityFallback (resp : List Char) : QualityParse :=
  let lines := splitOnChar '\n' (asciiLower resp)
  let st := lines.foldl
    (fun (acc : ℚ × List Char × List (List Char)) line =>
      let score :=
        if strContains line "score".data ∧ line.any (fun c => isDigitChar c) then
          match findNumber line with
          | some q => q
          | Option.none => acc.1
        else acc.1
      let cls :=
        if strContains line "high".data || strContains line "good".data ||
           strContains line "excellent".data then "high".data
        else if strContains line "low".data || strContains line "poor".data ||
           strContains line "bad".data then "low".data
        else acc.2.1
      let issues :=
        if strContains line "blur".data || strContains line "dark".data ||
           strContains line "noise".data || strContains line "tilt".data then
          acc.2.2 ++ [pyStrip line]
        else acc.2.2
      (score, cls, issues))
    (1 / 2, "medium".data, [])
  { score := clamp01 st.1, classification := st.2.1,
    issues := .plist ((st.2.2.take 3).map .pstr),
    recommendations := .plist [] }

def parseQualityResponse (env : PipeEnv) (resp : List Char) : QualityParse :=
  match parseQualityJSON env resp with
  | .ok r => r
  | .error _ => parseQualityFallback resp

/-! ### `_parse_content_type_response` -/

structure ContentParse where
  ctype : List Char
  conf : ℚ

def parseContentJSON (env : PipeEnv) (resp : List Char) :
    Except (List Char) ContentParse :=
  match extractBraces resp with
  | Option.none => .error "no json object".data
  | some sub =>
    (env.jsonLoads sub).bind (fun d =>
      (pyLower (pyGet d "content_type".data (.pstr "mixed".data))).bind (fun ct =>
        (pyFloat env (pyGet d "confidence".data (.pnum (7 / 10)))).bind (fun cf =>
          .ok { ctype := ct, conf := clamp01 cf })))

def parseContentFallback (resp : List Char) : ContentParse :=
  let rl := asciiLower resp
  if strContains rl "handwritten".data || strContains rl "handwriting".data then
    { ctype := "handwritten_text".data, conf := 4 / 5 }
  else if strContains rl "printed".data || strContains rl "textbook".data then
    { ctype := "printed_text".data, conf := 4 / 5 }
  else if strContains rl "diagram".data || strContains rl "chart".data ||
      strContains rl "graph".data then
    { ctype := "diagram".data, conf := 4 / 5 }
  else { ctype := "mixed".data, conf := 7 / 10 }

def parseContentTypeResponse (env : PipeEnv) (resp : List Char) : ContentParse :=
  match parseContentJSON env resp with
  | .ok r => r
  | .error _ => parseContentFallback resp

/-! ### `_parse_quiz_response` and `_generate_fallback_quiz` -/

/-- `dict.get(key, default)` narrowed to a string result; a non-string JSON
value at the key is modelled by the default (no claim depends on the
non-string corner, where the source would store the raw object). -/
def pyGetStr (d : List (List Char × PyVal)) (key dflt : List Char) : List Char :=
  match pyGet d key (.pstr dflt) with
  | .pstr s => s
  | _ => dflt

/-- As `pyGetStr` but for a list-of-strings value. -/
def pyGetStrList (d : List (List Char × PyVal)) (key : List Char)
    (dflt : List (List Char)) : List (List Char) :=
  match pyGet d key (.plist (dflt.map .pstr)) with
  | .plist xs => xs.map (fun v => match v with | .pstr s => s | _ => [])
  | _ => dflt

def defaultOptions : List (List Char) :=
  ["Option A".data, "Option B".data, "Option C".data, "Option D".data]

def quizFromDict (q : List (List Char × PyVal)) : QuizQ where
  question := pyGetStr q "question".data "Sample question".data
  question_type := pyGetStr q "type".data "multiple_choice".data
  options := pyGetStrList q "options".data defaultOptions
  correct_answer := pyGetStr q "correct_answer".data "Option A".data
  explanation := pyGetStr q "explanation".data "Generated explanation".data
  difficulty := pyGetStr q "difficulty".data "medium".data
  topic := pyGetStr q "topic".data "General".data

/-- JSON branch of `_parse_quiz_response`.  All the branches the source routes
to the text fallback (exception, `questions` value not iterable-of-dicts,
missing `questions` key, no brace region) are `.error`. -/
def parseQuizJSON (env : PipeEnv) (resp : List Char) :
    Except (List Char) (List QuizQ) :=
  match extractBraces resp with
  | Option.none => .error "no json object".data
  | some sub =>
    (env.jsonLoads sub).bind (fun d =>
      if pyHasKey d "questions".data then
        match pyGet d "questions".data .pnone with
        | .plist qs =>
          qs.take 10 |>.mapM (fun v =>
            match v with
            | .pdict q => Except.ok (quizFromDict q)
            | _ => Except.error "no attribute get".data)
        | _ => .error "not a question list".data
      else .error "no questions key".data)

def quizOptionMarks : List (List Char) :=
  ["A)".data, "B)".data, "C)".data, "D)".data,
   "a)".data, "b)".data, "c)".data, "d)".data]

def quizTextFallbackOne (qtext : List Char) : Option QuizQ :=
  let st := pyStrip qtext
  if st.length > 20 then
    let lines := splitOnChar '\n' st
    let question_text := lines.headD []
    let opts := (lines.drop 1).filterMap (fun line =>
      let ls := pyStrip line
      if quizOptionMarks.any (fun p => headMatches ls p) then some ls
      else Option.none)
    let options :=
      if opts = [] then
        if strContains (asciiLower question_text) "true".data ||
           strContains (asciiLower question_text) "false".data then
          ["True".data, "False".data]
        else defaultOptions
      else opts
    some { question := question_text.take 300
           question_type :=
             if options.length = 2 then "true_false".data
             else "multiple_choice".data
           options := options.take 4
           correct_answer := options.headD "True".data
           explanation := "This question tests understanding of the concept discussed in the content.".data
           difficulty := "medium".data
           topic := "Content Analysis".data }
  else Option.none

def parseQuizFallbackText (resp : List Char) : List QuizQ :=
  ((splitOnSep "\n\n".data resp).take 5).filterMap quizTextFallbackOne

def parseQuizResponse (env : PipeEnv) (resp : List Char) : List QuizQ :=
  match parseQuizJSON env resp with
  | .ok qs => qs
  | .error _ => parseQuizFallbackText resp

def stopWords : List (List Char) :=
  ["the".data, "and".data, "for".data, "with".data, "from".data]

def fallbackQuizOne (sentence : List Char) : Option QuizQ :=
  let st := pyStrip sentence
  if st.length > 20 then
    let words := pySplitWs st
    if words.length > 5 then
      let keyWords := words.filter
        (fun w => w.length > 3 ∧ asciiLower w ∉ stopWords)
      match keyWords with
      | [] => Option.none
      | missing :: _ =>
        some { question := "Fill in the blank: ".data ++
                 replaceFirst st missing "______".data
               question_type := "fill_in_blank".data
               options := [missing, "placeholder1".data,
                           "placeholder2".data, "placeholder3".data]
               correct_answer := missing
               explanation := "The correct answer is ".data ++ [sq] ++ missing ++
                 [sq] ++ " based on the context in the original text.".data
               difficulty := "medium".data
               topic := "Content Comprehension".data }
    else Option.none
  else Option.none

def genericComprehensionQ : QuizQ where
  question := "What is the main topic discussed in this content?".data
  question_type := "short_answer".data
  options := []
  correct_answer := "The main topic relates to the educational content provided.".data
  explanation := "This question tests general comprehension of the material.".data
  difficulty := "easy".data
  topic := "General Comprehension".data

def generateFallbackQuiz (text : List Char) : List QuizQ :=
  let qs := ((splitOnSep ". ".data text).take 5).filterMap fallbackQuizOne
  if text ≠ [] ∧ qs.length < 3 then qs ++ [genericComprehensionQ] else qs

/-! ### Text-extraction helpers (`_extract_with_google_vision`,
`_extract_with_gemini_vision`, `_extract_basic_text`) -/

/-- `_extract_with_google_vision`: every exception (including a `None`
image) is caught inside the helper and becomes `("", 0.0)`; an empty
annotation list also yields `("", 0.0)`. -/
def extractWithGoogleVision (env : PipeEnv) (d : Option (List Nat)) :
    List Char × ℚ :=
  match d with
  | Option.none => ([], 0)
  | some b =>
    match env.googleVision b with
    | .ok (some t) => (t, 9 / 10)
    | .ok Option.none => ([], 0)
    | .error _ => ([], 0)

/-- `_extract_with_gemini_vision`: exceptions become `("", 0.0)`. -/
def extractWithGeminiVision (env : PipeEnv) (d : Option (List Nat)) :
    List Char × ℚ :=
  match d with
  | Option.none => ([], 0)
  | some b =>
    match env.geminiVision b with
    | .ok t => (t, 4 / 5)
    | .error _ => ([], 0)

def extractionFailedMsg : List Char :=
  "Text extraction failed - please ensure the image contains clear, readable text".data

/-- `_extract_basic_text`: EasyOCR, then Tesseract, then Google Vision (when
available), each accepted only when its stripped text is non-empty; the
final fallback is a fixed failure message.  A `None` image makes every
engine raise, landing on the failure message. -/
def extractBasicText (env : PipeEnv) (d : Option (List Nat)) : List Char :=
  match d with
  | Option.none => extractionFailedMsg
  | some b =>
    let easyRes : Option (List Char) :=
      match env.easyocr b with
      | .ok t => if pyStrip t ≠ [] then some (pyStrip t) else Option.none
      | .error _ => Option.none
    match easyRes with
    | some t => t
    | Option.none =>
      let tessRes : Option (List Char) :=
        match env.tesseract b with
        | .ok t => if pyStrip t ≠ [] then some (pyStrip t) else Option.none
        | .error _ => Option.none
      match tessRes with
      | some t => t
      | Option.none =>
        if env.visionAvailable then
          let gv := (extractWithGoogleVision env (some b)).1
          if pyStrip gv ≠ [] then pyStrip gv else extractionFailedMsg
        else extractionFailedMsg

/-! ### Workflow nodes (`app/agent/workflow.py`) -/

/-- `validate_image_node`.  Note that the size check reads
`len(state.image_data or b"")`, which is `0` whenever the image was loaded
from `image_path` (the loaded bytes are stored only afterwards). -/
def validateImageNode (env : PipeEnv) (s : WState) : WState :=
  let opened : Except (List Char) PILImage :=
    match s.image_data with
    | some d => env.openBytes d
    | Option.none => env.openPath s.image_path
  match opened with
  | .error e =>
    { s with error_message := some ("Image validation failed: ".data ++ e),
             should_proceed := false }
  | .ok img =>
    if img.format ∉ SUPPORTED_IMAGE_FORMATS then
      { s with error_message := some ("Unsupported image format: ".data ++ img.format),
               should_proceed := false }
    else if (s.image_data.getD []).length > MAX_IMAGE_SIZE then
      { s with error_message := some "Image too large for processing".data,
               should_proceed := false }
    else if s.image_data.getD [] = [] then
      { s with image_data := some img.saveBytes }
    else s

/-- The `except` handler of `assess_quality_node` (it overwrites the three
quality fields regardless of what was assigned before the raise). -/
def assessExceptState (s : WState) : WState :=
  { s with quality_score := some (3 / 10),
           quality_classification := some .low,
           quality_issues := .plist [.pstr "Quality assessment failed".data] }

/-- `assess_quality_node`.  `base64.b64encode(None)` raises, and an invalid
classification string makes `ImageQuality(...)` raise; both land in the
handler. -/
def assessQualityNode (env : PipeEnv) (s : WState) : WState :=
  if s.should_proceed = false then s
  else
    match s.image_data with
    | Option.none => assessExceptState s
    | some d =>
      match env.geminiVision d with
      | .error _ => assessExceptState s
      | .ok resp =>
        match toImageQuality (asciiLower (parseQualityResponse env resp).classification) with
        | some q =>
          { s with quality_score := some (parseQualityResponse env resp).score,
                   quality_classification := some q,
                   quality_issues := (parseQualityResponse env resp).issues }
        | Option.none => assessExceptState s

def classifyExceptState (s : WState) : WState :=
  { s with content_type := some .mixed, content_confidence := some (1 / 2) }

/-- Prompt construction is modelled as tagged concatenation of the
template's interpolands. -/
def contentPromptKey (basic : List Char) : List Char :=
  "CONTENT_TYPE_CLASSIFIER_PROMPT ".data ++ basic.take 500

/-- `classify_content_node`. -/
def classifyContentNode (env : PipeEnv) (s : WState) : WState :=
  if s.should_proceed = false then s
  else
    match env.geminiText (contentPromptKey (extractBasicText env s.image_data)) with
    | .error _ => classifyExceptState s
    | .ok resp =>
      match toContentType (asciiLower (parseContentTypeResponse env resp).ctype) with
      | some ct =>
        { s with content_type := some ct,
                 content_confidence := some (parseContentTypeResponse env resp).conf }
      | Option.none => classifyExceptState s

def routeLowMsg : List Char := "Apply image preprocessing to improve quality".data

def routeMinorMsg : List Char := "Minor preprocessing recommended".data

def qualityTooLowMsg : List Char := "Image quality too low for processing".data

/-- The tool-selection decision table of `route_processing_node`. -/
def selectTool (ct : Option ContentType) : ProcessingTool :=
  if ct = some .handwritten_text then .trocr
  else if ct = some .diagram then .gemini_vision
  else .google_vision

/-- `str(TypeError)` for `None < float` (raised when `quality_score` is
still `None` at routing time). -/
def typeErrorLtNone : List Char :=
  [sq, '<', sq] ++ " not supported between instances of ".data ++
    [sq] ++ "NoneType".data ++ [sq] ++ " and ".data ++ [sq] ++ "float".data ++ [sq]

/-- The `try` body of `route_processing_node`; a raise carries the state as
mutated so far, which the handler keeps (the Python state is mutated in
place). -/
def routeBody (s : WState) : Except (WState × List Char) WState :=
  let step1 : Except (WState × List Char) WState :=
    if s.quality_classification = some ImageQuality.low then
      .ok { s with needs_preprocessing := true,
                   recommended_action := some routeLowMsg }
    else
      match s.quality_score with
      | Option.none => .error (s, typeErrorLtNone)
      | some q =>
        .ok (if q < QUALITY_THRESHOLD then
               { s with needs_preprocessing := true,
                        recommended_action := some routeMinorMsg }
             else s)
  match step1 with
  | .error e => .error e
  | .ok s1 =>
    match s1.quality_score with
    | Option.none => .error (s1, typeErrorLtNone)
    | some q =>
      if q < SCORE_FLOOR then
        .ok { s1 with should_proceed := false,
                      error_message := some qualityTooLowMsg }
      else
        .ok { s1 with processing_tool_used := some (selectTool s1.content_type) }

/-- `route_processing_node` (pure: no oracle is consulted). -/
def routeProcessingNode (s : WState) : WState :=
  match routeBody s with
  | .ok s2 => s2
  | .error (sp, msg) =>
    { sp with error_message := some ("Routing failed: ".data ++ msg) }

/-- `preprocess_image_node`: the OpenCV round-trip (decode, optional
filters, PNG re-encode) always replaces `image_data` when it completes;
any exception keeps the original state. -/
def preprocessImageNode (env : PipeEnv) (s : WState) : WState :=
  if s.needs_preprocessing = false then s
  else
    match s.image_data with
    | Option.none => s
    | some d =>
      match env.cvDecode d with
      | .error _ => s
      | .ok img =>
        let issuesLower := asciiLower (pyRepr s.quality_issues)
        let i1 := if strContains issuesLower "blur".data then env.sharpen img else img
        let i2 := if strContains issuesLower "contrast".data then env.contrastScale i1 else i1
        let i3 := if strContains issuesLower "noise".data then env.medianBlur i2 else i2
        { s with image_data := some (env.pngEncode i3) }

/-- The backend dispatch of `extract_text_node` (the preferred tool gets a
single attempt; everything else lands on `_extract_basic_text` with fixed
confidence 0.7). -/
def extractToolResult (env : PipeEnv) (s : WState) : List Char × ℚ :=
  if s.processing_tool_used = some ProcessingTool.google_vision ∧ env.visionAvailable then
    extractWithGoogleVision env s.image_data
  else if s.processing_tool_used = some ProcessingTool.gemini_vision then
    extractWithGeminiVision env s.image_data
  else
    (extractBasicText env s.image_data, 7 / 10)

/-- `extract_text_node`.  The preferred tool is consulted once; only the
basic-extraction branch has an internal fallback chain, and
`processing_tool_used` is never written here. -/
def extractTextNode (env : PipeEnv) (s : WState) : WState :=
  if s.should_proceed = false then s
  else if (pyStrip (extractToolResult env s).1).length < MIN_TEXT_LENGTH then
    { s with extracted_text := some (extractToolResult env s).1,
             extraction_confidence := some (extractToolResult env s).2,
             error_message := some "Insufficient text extracted from image".data }
  else
    { s with extracted_text := some (extractToolResult env s).1,
             extraction_confidence := some (extractToolResult env s).2 }

/-- `state.content_type.value if state.content_type else "mixed"`. -/
def ctStrOf (s : WState) : List Char :=
  match s.content_type with
  | some ct => ctValue ct
  | Option.none => "mixed".data

/-- Python `value or default` for optional strings. -/
def orDefaultStr (v : Option (List Char)) (d : List Char) : List Char :=
  match v with
  | some t => if t.isEmpty then d else t
  | Option.none => d

/-- The shared JSON-then-raw pattern of the summary/explanation nodes:
extract a brace region, load it, read `key`; on any failure (or a
non-string value, modelled by its fallback) use `response.strip()`. -/
def jsonTextField (env : PipeEnv) (resp key : List Char) : List Char :=
  match extractBraces resp with
  | some sub =>
    match env.jsonLoads sub with
    | .ok d =>
      match pyGet d key .pnone with
      | .pstr v => v
      | _ => pyStrip resp
    | .error _ => pyStrip resp
  | Option.none => pyStrip resp

def summaryPromptKey (t ct : List Char) : List Char :=
  "SUMMARY_AGENT_PROMPT ".data ++ t ++ " | ".data ++ ct

/-- `generate_summary_node`. -/
def generateSummaryNode (env : PipeEnv) (s : WState) : WState :=
  match s.extracted_text with
  | Option.none =>
    { s with summary := some "No sufficient text found for summary generation.".data }
  | some t =>
    if t.isEmpty ∨ (pyStrip t).length < 10 then
      { s with summary := some "No sufficient text found for summary generation.".data }
    else
      match env.geminiText (summaryPromptKey t (ctStrOf s)) with
      | .ok resp =>
        { s with summary := some (jsonTextField env resp "summary_text".data) }
      | .error e =>
        { s with summary := some ("Summary generation failed: ".data ++ e ++
            ". Original content: ".data ++ t.take 200 ++ "...".data) }

def explanationPromptKey (t ct sm : List Char) : List Char :=
  "EXPLANATION_AGENT_PROMPT ".data ++ t ++ " | ".data ++ ct ++ " | ".data ++ sm

/-- `generate_explanation_node`. -/
def generateExplanationNode (env : PipeEnv) (s : WState) : WState :=
  match s.extracted_text with
  | Option.none =>
    { s with explanation := some "No text available for explanation generation.".data }
  | some t =>
    if t.isEmpty then
      { s with explanation := some "No text available for explanation generation.".data }
    else
      match env.geminiText (explanationPromptKey t (ctStrOf s)
          (orDefaultStr s.summary "No summary available".data)) with
      | .ok resp =>
        { s with explanation := some (jsonTextField env resp "detailed_explanation".data) }
      | .error e =>
        { s with explanation := some ("Explanation generation failed: ".data ++ e ++
            ". Content overview: ".data ++ t.take 300 ++ "...".data) }

def quizPromptKey (t ct sm : List Char) : List Char :=
  "QUIZ_GENERATOR_PROMPT ".data ++ t ++ " | ".data ++ ct ++ " | ".data ++ sm

/-- `generate_quiz_node`. -/
def generateQuizNode (env : PipeEnv) (s : WState) : WState :=
  match s.extracted_text with
  | Option.none => { s with quiz_questions := [] }
  | some t =>
    if t.isEmpty then { s with quiz_questions := [] }
    else
      match env.geminiText (quizPromptKey t (ctStrOf s) (orDefaultStr s.summary [])) with
      | .ok resp => { s with quiz_questions := parseQuizResponse env resp }
      | .error _ => { s with quiz_questions := generateFallbackQuiz t }

/-- `finalize_results_node`: `time.time() - None` raises when `start_time`
is `None`, and the handler returns the state unchanged. -/
def finalizeResultsNode (clock : ℚ) (s : WState) : WState :=
  match s.start_time with
  | some t0 => { s with processing_time := some (clock - t0) }
  | Option.none => s

/-! ### The workflow graph (`build_workflow_graph`) -/

inductive ContinueDecision where
  | preprocess | extract | stop
deriving DecidableEq

/-- `should_continue_processing` (the conditional edge out of
`route_processing`; `stop` models the string `"end"` mapped to `END`). -/
def shouldContinueProcessing (s : WState) : ContinueDecision :=
  if s.should_proceed = false then .stop
  else if s.needs_preprocessing then .preprocess
  else .extract

/-- `route_ai_processing` (the conditional edge out of `extract_text`;
`true` models `"summary"`, `false` models `"finalize"`). -/
def routeAIProcessing (s : WState) : Bool :=
  match s.extracted_text with
  | Option.none => false
  | some t => ¬ t.isEmpty ∧ ¬ ((pyStrip t).length < 10)

inductive NodeId where
  | validate | assess | classify | route | preprocess | extract
  | genSummary | genExplanation | genQuiz | finalize
deriving DecidableEq

def applyNode (env : PipeEnv) (clock : ℚ) : NodeId → WState → WState
  | .validate, s => validateImageNode env s
  | .assess, s => assessQualityNode env s
  | .classify, s => classifyContentNode env s
  | .route, s => routeProcessingNode s
  | .preprocess, s => preprocessImageNode env s
  | .extract, s => extractTextNode env s
  | .genSummary, s => generateSummaryNode env s
  | .genExplanation, s => generateExplanationNode env s
  | .genQuiz, s => generateQuizNode env s
  | .finalize, s => finalizeResultsNode clock s

/-- The static edge table of `build_workflow_graph`; conditional edges read
the state returned by the node just run. -/
def nextNode : NodeId → WState → Option NodeId
  | .validate, _ => some .assess
  | .assess, _ => some .classify
  | .classify, _ => some .route
  | .route, s =>
    match shouldContinueProcessing s with
    | .preprocess => some .preprocess
    | .extract => some .extract
    | .stop => Option.none
  | .preprocess, _ => some .extract
  | .extract, s => if routeAIProcessing s then some .genSummary else some .finalize
  | .genSummary, _ => some .genExplanation
  | .genExplanation, _ => some .genQuiz
  | .genQuiz, _ => some .finalize
  | .finalize, _ => Option.none

/-- Execution trace of the graph: the list of `(node, input-state)` pairs of
the nodes that actually run.  The graph is acyclic with at most ten nodes
on any path, so fuel `10` is exact. -/
def runGo (env : PipeEnv) (clock : ℚ) : Nat → NodeId → WState → List (NodeId × WState)
  | 0, _, _ => []
  | fuel + 1, n, s =>
    let s2 := applyNode env clock n s
    (n, s) ::
      (match nextNode n s2 with
       | some n2 => runGo env clock fuel n2 s2
       | Option.none => [])

def runTrace (env : PipeEnv) (clock : ℚ) (s0 : WState) : List (NodeId × WState) :=
  runGo env clock 10 .validate s0

/-! ### Content detection (`DocumentChunk._detect_*` in
`app/services/enhanced_document_processor.py`)

Each regular expression of the source is modelled by an equivalent scan:
  * `\$[^$]+\$` matches iff some `$` is followed by a non-empty `$`-free run
    and then another `$`.
  * `\$\$[^$]+\$\$` likewise with doubled dollars.
  * `[a-zA-Z0-9\s]*=\s*[a-zA-Z0-9\s+\-*/()^]+` matches iff some `=` is
    directly followed by a character of the (whitespace-containing) value
    class, since the prefix may be empty and `\s` is inside the value class.
  * `\\[a-zA-Z]+` matches iff some backslash is followed by a letter.
  * a character class under `re.IGNORECASE` also matches the upper-case
    folds of its Greek members. -/

def hasDollarPair : List Char → Bool
  | [] => false
  | c :: rest =>
    (c = '$' &&
      (let run := rest.takeWhile (fun d => d ≠ '$')
       ¬ run.isEmpty && headMatches (rest.drop run.length) ['$'])) ||
    hasDollarPair rest

def hasDoubleDollarBlock : List Char → Bool
  | [] => false
  | c :: rest =>
    (c = '$' && headMatches rest ['$'] &&
      (let after := rest.drop 1
       let run := after.takeWhile (fun d => d ≠ '$')
       ¬ run.isEmpty && headMatches (after.drop run.length) "$$".data)) ||
    hasDoubleDollarBlock rest

def eqValueClassChar (c : Char) : Bool :=
  isAlnumChar c || isWs c || c ∈ ['+', '-', '*', '/', '(', ')', '^']

def hasSimpleEquation : List Char → Bool
  | [] => false
  | c :: rest =>
    (c = '=' && (match rest with | d :: _ => eqValueClassChar d | [] => false)) ||
    hasSimpleEquation rest

def hasLatexCommand : List Char → Bool
  | [] => false
  | c :: rest =>
    (c = '\\' && (match rest with | d :: _ => isAlphaChar d | [] => false)) ||
    hasLatexCommand rest

/-- The math-symbol class together with the upper-case folds of its Greek
members (matched because of `re.IGNORECASE`). -/
def mathSymbolChars : List Char :=
  "∑∫π√∞±≈≠≤≥αβγδθλμσφψω".data ++ "ΠΑΒΓΔΘΛΜΣΦΨΩς".data

def detectMathContent (s : List Char) : Bool :=
  hasDollarPair s || hasDoubleDollarBlock s || hasSimpleEquation s ||
    hasLatexCommand s || s.any (fun c => c ∈ mathSymbolChars)

def commonChemicals : List (List Char) :=
  ["H2O".data, "CO2".data, "NaCl".data, "CH4".data, "O2".data, "N2".data,
   "Ca(OH)2".data, "H2SO4".data, "HCl".data, "NaOH".data]

/-- `[A-Z][a-z]?[0-9]*(?:\([A-Z][a-z]?[0-9]*\))*[0-9]*` has everything after
the leading capital optional, so it matches iff the text has any upper-case
ASCII letter; the common-chemicals alternation is a substring test. -/
def detectChemicalContent (s : List Char) : Bool :=
  s.any isUpperAZ || commonChemicals.any (fun p => strContains s p)

def hasCaretAlnum : List Char → Bool
  | [] => false
  | c :: rest =>
    (c = '^' && (match rest with | d :: _ => isAlnumChar d | [] => false)) ||
    hasCaretAlnum rest

def hasUnderscoreAlnum : List Char → Bool
  | [] => false
  | c :: rest =>
    (c = '_' && (match rest with | d :: _ => isAlnumChar d | [] => false)) ||
    hasUnderscoreAlnum rest

def hasDigitCaretDigit : List Char → Bool
  | [] => false
  | c :: rest =>
    (isDigitChar c &&
      (match rest with
       | d :: e :: _ => d = '^' && isDigitChar e
       | _ => false)) ||
    hasDigitCaretDigit rest

def hasAlphaUnderscoreDigit : List Char → Bool
  | [] => false
  | c :: rest =>
    (isAlphaChar c &&
      (match rest with
       | d :: e :: _ => d = '_' && isDigitChar e
       | _ => false)) ||
    hasAlphaUnderscoreDigit rest

def supersubLiterals : List (List Char) :=
  ["x²".data, "x³".data, "m²".data, "cm³".data, "kg/m³".data]

def detectSupersubContent (s : List Char) : Bool :=
  hasCaretAlnum s || hasUnderscoreAlnum s || hasDigitCaretDigit s ||
    hasAlphaUnderscoreDigit s ||
    supersubLiterals.any (fun p => strContains (asciiLower s) p)

/-! ### `DocumentChunk` and `create_chunks` -/

structure DocumentChunk where
  chunk_id : List Char
  content : List Char
  start_index : Nat
  end_index : Nat
  overlap_size : Nat
  word_count : Nat
  character_count : Nat
  has_math : Bool
  has_chemical : Bool
  has_supersub : Bool
deriving DecidableEq

/-- The `DocumentChunk` constructor (derived fields computed from the
content exactly as `__init__` does). -/
def mkDocumentChunk (cid content : List Char) (si ei ov : Nat) : DocumentChunk where
  chunk_id := cid
  content := content
  start_index := si
  end_index := ei
  overlap_size := ov
  word_count := (pySplitWs content).length
  character_count := content.length
  has_math := detectMathContent content
  has_chemical := detectChemicalContent content
  has_supersub := detectSupersubContent content

/-- `re.search(r'\\[a-zA-Z]*$', w)`: some backslash in `w` is followed only
by letters up to the end of `w`. -/
def bsAlphaSuffix : List Char → Bool
  | [] => false
  | c :: rest => (c = '\\' && rest.all isAlphaChar) || bsAlphaSuffix rest

/-- Leftmost match of `\$[^$]+\$|\\[a-zA-Z]+` together with its end
position (`match.end()`). -/
def findMathExprGo : List Char → Nat → Option (List Char × Nat)
  | [], _ => Option.none
  | c :: rest, p =>
    if c = '$' then
      let run := rest.takeWhile (fun d => d ≠ '$')
      if ¬ run.isEmpty ∧ headMatches (rest.drop run.length) ['$'] then
        some ('$' :: run ++ ['$'], p + run.length + 2)
      else findMathExprGo rest (p + 1)
    else if c = '\\' then
      let run := rest.takeWhile isAlphaChar
      if ¬ run.isEmpty then some ('\\' :: run, p + 1 + run.length)
      else findMathExprGo rest (p + 1)
    else findMathExprGo rest (p + 1)

def findMathExpr (s : List Char) : Option (List Char × Nat) := findMathExprGo s 0

/-- One splice step of `_preserve_math_at_boundary`: the matched expression
(found in the `full_text` window) is prepended and `chunk_content` is cut at
the match's end position — an index into the window, applied to the chunk
content exactly as the source does. -/
def preserveMathSplice (content window : List Char) : List Char :=
  match findMathExpr window with
  | some (m, e) => m ++ content.drop e
  | Option.none => content

/-- `_preserve_math_at_boundary`.  The first pattern `\$[^$]*$` fires iff
the first 100 characters contain a `$` (the last `$` always matches); the
second is `bsAlphaSuffix` of the (possibly already spliced) first 100
characters.  The window slice uses full Python semantics, including the
negative-start wrap-around for `start_pos < 50`. -/
def preserveMathAtBoundary (content fullText : List Char) (startPos : Nat) : List Char :=
  let window := pySlice fullText ((startPos : Int) - 50) ((startPos : Int) + 200)
  let c1 :=
    if (content.take 100).any (fun c => c = '$') then preserveMathSplice content window
    else content
  if bsAlphaSuffix (c1.take 100) then preserveMathSplice c1 window else c1

def breakSubs : List (List Char) :=
  ["\n\n".data, "\n".data, ". ".data, "! ".data, "? ".data]

/-- One acceptance test of the break-point loop of `create_chunks`: a found
position is taken (as `bp + 1`) only when strictly past 70% of `chunk_size`
from `start`.  The float bound `start + chunk_size * 0.7` is modelled
exactly as the rational `start + 7*cs/10` (compared here in integers as
`10*bp > 10*start + 7*cs`). -/
def acceptBreak (cs start : Nat) (bp? : Option Nat) : Option Nat :=
  match bp? with
  | some bp => if 10 * bp > 10 * start + 7 * cs then some (bp + 1) else Option.none
  | Option.none => Option.none

def bestBreak (text : List Char) (cs start e0 : Nat) : Option Nat :=
  (breakSubs.map (fun sub => rfind text sub start e0)).findSome?
    (acceptBreak cs start)

/-- The chunk-end choice of one loop iteration of `create_chunks`. -/
def chunkEnd (text : List Char) (cs start : Nat) : Nat :=
  let e0 := min (start + cs) text.length
  if e0 < text.length then
    match bestBreak text cs start e0 with
    | some b => b
    | Option.none => e0
  else e0

/-- `chunk_start = max(0, start_index - (overlap_size if chunk_index > 0
else 0))` (truncated subtraction is the `max(0, ...)`). -/
def chunkStartAt (start idx ov : Nat) : Nat :=
  start - (if idx > 0 then ov else 0)

/-- `text[chunk_start:end_index]` of one loop iteration. -/
def chunkRawAt (text : List Char) (cs ov start idx : Nat) : List Char :=
  (text.drop (chunkStartAt start idx ov)).take
    (chunkEnd text cs start - chunkStartAt start idx ov)

/-- The chunk content of one iteration, with the optional math-preservation
splice. -/
def chunkContentAt (text : List Char) (cs ov : Nat) (pm : Bool)
    (start idx : Nat) : List Char :=
  if pm ∧ idx > 0 then
    preserveMathAtBoundary (chunkRawAt text cs ov start idx) text
      (chunkStartAt start idx ov)
  else chunkRawAt text cs ov start idx

/-- The `while start_index < len(text)` loop of `create_chunks`, with fuel
(the loop diverges in Python when `chunk_size = 0`; all uses have
`chunk_size ≥ 1`, for which `text.length + 1` fuel is enough). -/
def createChunksLoop (text : List Char) (cs ov : Nat) (pm : Bool) :
    Nat → Nat → Nat → List DocumentChunk
  | _, _, 0 => []
  | start, idx, fuel + 1 =>
    if start < text.length then
      mkDocumentChunk ("chunk_".data ++ natRepr idx)
          (chunkContentAt text cs ov pm start idx)
          (chunkStartAt start idx ov) (chunkEnd text cs start)
          (if idx > 0 then ov else 0) ::
        createChunksLoop text cs ov pm (chunkEnd text cs start) (idx + 1) fuel
    else []

/-- `create_chunks(text, chunk_size, overlap_size, preserve_math)`. -/
def createChunks (text : List Char) (cs ov : Nat) (pm : Bool) : List DocumentChunk :=
  if text.length ≤ cs then
    [mkDocumentChunk ("chunk_".data ++ natRepr 0) text 0 text.length 0]
  else createChunksLoop text cs ov pm 0 0 (text.length + 1)

/-! ### Parallel chunk processing (`process_chunks_parallel`) -/

/-- The per-chunk result dict; an error entry populates only `chunk_id`,
`error` and the three content flags. -/
structure ChunkEntry where
  chunk_id : List Char
  error : Option (List Char)
  summary : Option (List Char)
  explanation : Option (List Char)
  quiz : Option (List QuizQ)
  has_math : Bool
  has_chemical : Bool
  has_supersub : Bool
  word_count : Option Nat
  character_count : Option Nat
deriving DecidableEq

/-- The fresh per-chunk `ImageProcessingState` built inside
`process_single_chunk` (all remaining fields take their pydantic
defaults). -/
def mkChunkState (orig : WState) (chunk : DocumentChunk) : WState where
  image_path := orig.image_path
  image_data := Option.none
  user_id := orig.user_id
  start_time := Option.none
  processing_time := Option.none
  error_message := Option.none
  retry_count := 0
  quality_score := orig.quality_score
  quality_classification := orig.quality_classification
  quality_issues := .plist []
  content_type := orig.content_type
  content_confidence := orig.content_confidence
  extracted_text := some chunk.content
  extraction_confidence := Option.none
  processing_tool_used := Option.none
  summary := Option.none
  explanation := Option.none
  quiz_questions := []
  needs_preprocessing := false
  should_proceed := true
  recommended_action := Option.none

/-- `_process_chunk_summary` (the state object is mutated in place in the
source, so the updated state is returned alongside the text). -/
def processChunkSummary (env : PipeEnv) (st : WState) (chunk : DocumentChunk) :
    List Char × WState :=
  let st2 := generateSummaryNode env st
  (orDefaultStr st2.summary ("Summary for ".data ++ chunk.chunk_id), st2)

def processChunkExplanation (env : PipeEnv) (st : WState) (chunk : DocumentChunk) :
    List Char × WState :=
  let st2 := generateExplanationNode env st
  (orDefaultStr st2.explanation ("Explanation for ".data ++ chunk.chunk_id), st2)

def processChunkQuiz (env : PipeEnv) (st : WState) : List QuizQ × WState :=
  let st2 := generateQuizNode env st
  (st2.quiz_questions.take 3, st2)

/-- `process_single_chunk` for the chunk at global index `i`.  `exO` is the
exception oracle: `some msg` models any exception raised inside the task's
`try` (e.g. by the progress callback), which the handler turns into an
error entry carrying the chunk's precomputed flags. -/
def processSingleChunk (env : PipeEnv) (exO : Nat → Option (List Char))
    (orig : WState) (chunk : DocumentChunk) (i : Nat) : ChunkEntry :=
  match exO i with
  | some e =>
    { chunk_id := chunk.chunk_id, error := some e,
      summary := Option.none, explanation := Option.none, quiz := Option.none,
      has_math := chunk.has_math, has_chemical := chunk.has_chemical,
      has_supersub := chunk.has_supersub,
      word_count := Option.none, character_count := Option.none }
  | Option.none =>
    let st0 := mkChunkState orig chunk
    let r1 := processChunkSummary env st0 chunk
    let r2 := processChunkExplanation env r1.2 chunk
    let r3 := processChunkQuiz env r2.2
    { chunk_id := chunk.chunk_id, error := Option.none,
      summary := some r1.1, explanation := some r2.1, quiz := some r3.1,
      has_math := chunk.has_math, has_chemical := chunk.has_chemical,
      has_supersub := chunk.has_supersub,
      word_count := some chunk.word_count,
      character_count := some chunk.character_count }

def listBatchesGo (n : Nat) {α : Type} : Nat → List α → List (List α)
  | 0, _ => []
  | _, [] => []
  | fuel + 1, l => l.take n :: listBatchesGo n fuel (l.drop n)

/-- `chunks[i:i + max_concurrency]` batching of the dispatch loop. -/
def listBatches (n : Nat) {α : Type} (l : List α) : List (List α) :=
  listBatchesGo n l.length l

/-- `process_chunks_parallel`: batches of `max_concurrency` tasks are
gathered in originating order and extended onto the result list (the
inter-batch sleep is timing-only).  `range(0, len, 0)` raises in Python;
`max_concurrency` is always ≥ 1 here. -/
def processChunksParallel (env : PipeEnv) (exO : Nat → Option (List Char))
    (orig : WState) (chunks : List DocumentChunk) (maxC : Nat) : List ChunkEntry :=
  if maxC = 0 then []
  else
    ((listBatches maxC chunks.enum).map
      (fun batch => batch.map (fun ic => processSingleChunk env exO orig ic.2 ic.1))).flatten

/-! ### Result merging (`merge_chunk_results`) -/

structure MergeResult where
  merged_summary : List Char
  merged_explanation : List Char
  merged_quiz : List QuizQ
  total_chunks : Nat
  successful_chunks : Nat
  failed_chunks : Nat
  math_chunks : Nat
  chemical_chunks : Nat
  supersub_chunks : Nat
  chunk_results : List ChunkEntry
deriving DecidableEq

def mergeSummaries (summaries : List (List Char)) : List Char :=
  match summaries with
  | [] => "No summary could be generated.".data
  | [s] => s
  | _ =>
    pyStrip (summaries.enum.foldl
      (fun acc is =>
        acc ++ "### Section ".data ++ natRepr (is.1 + 1) ++ "\n\n".data ++
          is.2 ++ "\n\n".data)
      "## Document Summary\n\n".data)

def mergeExplanations (explanations : List (List Char)) : List Char :=
  match explanations with
  | [] => "No explanation could be generated.".data
  | [s] => s
  | _ =>
    pyStrip (explanations.enum.foldl
      (fun acc is =>
        acc ++ "### Part ".data ++ natRepr (is.1 + 1) ++ "\n\n".data ++
          is.2 ++ "\n\n".data)
      "## Detailed Explanation\n\n".data)

/-- `_deduplicate_quiz_questions`: first occurrence of each non-empty
normalised (`strip().lower()`) question text wins; empty texts are dropped
(every entry is a dict in this model, so the `isinstance` test passes). -/
def dedupQuizAux : List QuizQ → List (List Char) → List QuizQ
  | [], _ => []
  | q :: rest, seen =>
    let qt := asciiLower (pyStrip q.question)
    if qt ≠ [] ∧ qt ∉ seen then q :: dedupQuizAux rest (qt :: seen)
    else dedupQuizAux rest seen

def deduplicateQuizQuestions (qs : List QuizQ) : List QuizQ := dedupQuizAux qs []

/-- The pooled quiz questions of the successful entries. -/
def quizPool (rs : List ChunkEntry) : List QuizQ :=
  ((rs.filter (fun r => r.error.isNone)).map (fun r => r.quiz.getD [])).flatten

/-- `merge_chunk_results`. -/
def mergeChunkResults (chunks : List DocumentChunk) (rs : List ChunkEntry) :
    MergeResult :=
  let successful := rs.filter (fun r => r.error.isNone)
  let summaries := successful.filterMap (fun r =>
    match r.summary with
    | some t => if t.isEmpty then Option.none else some t
    | Option.none => Option.none)
  let explanations := successful.filterMap (fun r =>
    match r.explanation with
    | some t => if t.isEmpty then Option.none else some t
    | Option.none => Option.none)
  { merged_summary := mergeSummaries summaries
    merged_explanation := mergeExplanations explanations
    merged_quiz := (deduplicateQuizQuestions (quizPool rs)).take 15
    total_chunks := chunks.length
    successful_chunks := successful.length
    failed_chunks := chunks.length - successful.length
    math_chunks := (rs.filter (fun r => r.has_math)).length
    chemical_chunks := (rs.filter (fun r => r.has_chemical)).length
    supersub_chunks := (rs.filter (fun r => r.has_supersub)).length
    chunk_results := rs }

/-! ## Theorems -/

/-! ### Shared concrete environments and states for witnesses -/

/-- A concrete environment used by witnesses. -/
def exEnv : PipeEnv where
  openBytes := fun _ => .ok { format := "PNG".data, saveBytes := [1] }
  openPath := fun _ => .error "file not found".data
  geminiVision := fun _ => .ok "resp".data
  geminiText := fun _ => .ok "text resp".data
  visionAvailable := true
  googleVision := fun _ => .error "boom".data
  easyocr := fun _ => .ok "fallback text from easyocr".data
  tesseract := fun _ => .ok "tess text".data
  cvDecode := fun _ => .ok { pixels := [] }
  sharpen := fun m => m
  contrastScale := fun m => m
  medianBlur := fun m => m
  pngEncode := fun _ => [7, 7]
  jsonLoads := fun _ => .error "bad json".data
  strFloat := fun _ => .error "bad float".data

/-- A helper for building `¬ (a ++ b) = c` from a disagreement on a prefix. -/
theorem append_ne_of_take_ne {a b c : List Char} (n : Nat) (hn : n ≤ a.length)
    (h : a.take n ≠ c.take n) : a ++ b ≠ c := by
  intro he
  apply h
  rw [← he, List.take_append_eq_append_take]
  have h0 : n - a.length = 0 := by omega
  rw [h0]
  simp

/-! ### C1 — routing decision table -/

/-- C1: for every state reaching `route_processing` with the classification,
score and content type populated (and the routing flags at their incoming
defaults), the node sets `needs_preprocessing` iff the classification is LOW
or the score is below the 0.6 threshold; a score below 0.2 clears
`should_proceed` and records the quality-too-low error; otherwise the
backend is TROCR for handwritten text, GEMINI_VISION for diagrams and
GOOGLE_VISION for everything else; and equal inputs give the equal output
triple. -/
theorem route_processing_decision_table (s : WState) (q : ℚ) (qc : ImageQuality)
    (ct : ContentType)
    (hnp : s.needs_preprocessing = false) (hsp : s.should_proceed = true)
    (hq : s.quality_score = some q) (hqc : s.quality_classification = some qc)
    (hct : s.content_type = some ct)
    (htool : s.processing_tool_used = Option.none) :
    ((routeProcessingNode s).needs_preprocessing = true ↔
        (qc = ImageQuality.low ∨ q < QUALITY_THRESHOLD)) ∧
    ((routeProcessingNode s).should_proceed = false ↔ q < SCORE_FLOOR) ∧
    (q < SCORE_FLOOR →
      (routeProcessingNode s).error_message = some qualityTooLowMsg ∧
        strContains qualityTooLowMsg "quality too low".data = true) ∧
    (¬ q < SCORE_FLOOR →
      (routeProcessingNode s).processing_tool_used =
        some (if ct = ContentType.handwritten_text then ProcessingTool.trocr
              else if ct = ContentType.diagram then ProcessingTool.gemini_vision
              else ProcessingTool.google_vision)) ∧
    (∀ s2 : WState, s2.needs_preprocessing = false → s2.should_proceed = true →
      s2.quality_score = some q → s2.quality_classification = some qc →
      s2.content_type = some ct → s2.processing_tool_used = Option.none →
      (routeProcessingNode s2).needs_preprocessing =
          (routeProcessingNode s).needs_preprocessing ∧
        (routeProcessingNode s2).should_proceed =
          (routeProcessingNode s).should_proceed ∧
        (routeProcessingNode s2).processing_tool_used =
          (routeProcessingNode s).processing_tool_used) := by
  have heval : ∀ s2 : WState, s2.needs_preprocessing = false →
      s2.should_proceed = true → s2.quality_score = some q →
      s2.quality_classification = some qc → s2.content_type = some ct →
      routeProcessingNode s2 =
        (let s1 := if qc = ImageQuality.low then
              { s2 with needs_preprocessing := true,
                        recommended_action := some routeLowMsg }
            else if q < QUALITY_THRESHOLD then
              { s2 with needs_preprocessing := true,
                        recommended_action := some routeMinorMsg }
            else s2
         if q < SCORE_FLOOR then
           { s1 with should_proceed := false,
                     error_message := some qualityTooLowMsg }
         else
           { s1 with processing_tool_used := some (selectTool (some ct)) }) := by
    intro s2 _ _ hq2 hqc2 hct2
    by_cases hlow : qc = ImageQuality.low <;>
      by_cases hthr : q < QUALITY_THRESHOLD <;>
      by_cases h5 : q < SCORE_FLOOR <;>
      simp [routeProcessingNode, routeBody, hq2, hqc2, hct2, hlow, hthr, h5]
  have hth : q < SCORE_FLOOR → q < QUALITY_THRESHOLD := by
    intro h; unfold QUALITY_THRESHOLD; unfold SCORE_FLOOR at h; linarith
  rw [heval s hnp hsp hq hqc hct]
  refine ⟨?_, ?_, ?_, ?_, ?_⟩
  · by_cases hlow : qc = ImageQuality.low <;>
      by_cases hthr : q < QUALITY_THRESHOLD <;>
      by_cases h5 : q < SCORE_FLOOR <;>
      first
        | exact absurd (hth h5) hthr
        | simp [hlow, hthr, h5, hnp]
  · by_cases hlow : qc = ImageQuality.low <;>
      by_cases hthr : q < QUALITY_THRESHOLD <;>
      by_cases h5 : q < SCORE_FLOOR <;>
      first
        | exact absurd (hth h5) hthr
        | simp [hlow, hthr, h5, hsp, hnp]
  · intro h5
    have hthr := hth h5
    constructor
    · by_cases hlow : qc = ImageQuality.low <;> simp [hlow, hthr, h5]
    · decide
  · intro h5
    by_cases hlow : qc = ImageQuality.low <;>
      by_cases hthr : q < QUALITY_THRESHOLD <;>
      simp [hlow, hthr, h5, selectTool]
  · intro s2 hnp2 hsp2 hq2 hqc2 hct2 htool2
    rw [heval s2 hnp2 hsp2 hq2 hqc2 hct2]
    by_cases hlow : qc = ImageQuality.low <;>
      by_cases hthr : q < QUALITY_THRESHOLD <;>
      by_cases h5 : q < SCORE_FLOOR <;>
      first
        | exact absurd (hth h5) hthr
        | simp [hlow, hthr, h5, hsp, hsp2, hnp, hnp2, htool, htool2]

/-- Witness for C1 at a concrete medium-quality diagram state. -/
theorem route_processing_decision_table_witness :
    ((routeProcessingNode
        { initState "p".data "u".data 0 with
            quality_score := some (1 / 2),
            quality_classification := some ImageQuality.medium,
            content_type := some ContentType.diagram }).needs_preprocessing = true ↔
      (ImageQuality.medium = ImageQuality.low ∨ (1 / 2 : ℚ) < QUALITY_THRESHOLD)) ∧
    ((routeProcessingNode
        { initState "p".data "u".data 0 with
            quality_score := some (1 / 2),
            quality_classification := some ImageQuality.medium,
            content_type := some ContentType.diagram }).should_proceed = false ↔
      (1 / 2 : ℚ) < SCORE_FLOOR) := by
  have h := route_processing_decision_table
    { initState "p".data "u".data 0 with
        quality_score := some (1 / 2),
        quality_classification := some ImageQuality.medium,
        content_type := some ContentType.diagram }
    (1 / 2) ImageQuality.medium ContentType.diagram rfl rfl rfl rfl rfl rfl
  exact ⟨h.1, h.2.1⟩

/-! ### C9 — the "Image too large" branch is unreachable for path-loaded
images -/

/-- C9: `process_image` builds its initial state with `image_data = None`,
and on such a state `validate_image_node` can never produce the
"Image too large for processing" rejection, whatever the environment does
and however large the file at `image_path` is: the size check reads
`len(state.image_data or b"")`, which is 0, before the loaded bytes are
stored. -/
theorem validate_image_too_large_unreachable (env : PipeEnv)
    (path uid : List Char) (t : ℚ) :
    (initState path uid t).image_data = Option.none ∧
    (validateImageNode env (initState path uid t)).error_message ≠
      some "Image too large for processing".data := by
  refine ⟨rfl, ?_⟩
  unfold validateImageNode
  simp only [initState]
  cases hopen : env.openPath path with
  | error e =>
    simp only [hopen]
    intro hcontra
    simp only [WState.error_message, Option.some.injEq] at hcontra
    exact append_ne_of_take_ne 7 (by decide)
      (by decide : ("Image validation failed: ".data.take 7 ≠
        "Image too large for processing".data.take 7)) hcontra
  | ok img =>
    simp only [hopen]
    by_cases hfmt : img.format ∈ SUPPORTED_IMAGE_FORMATS
    · simp [hfmt, MAX_IMAGE_SIZE]
    · simp only [hfmt]
      intro hcontra
      simp only [hfmt, not_false_eq_true, if_true, WState.error_message,
        Option.some.injEq] at hcontra
      exact append_ne_of_take_ne 1 (by decide)
        (by decide : ("Unsupported image format: ".data.take 1 ≠
          "Image too large for processing".data.take 1)) hcontra

/-- Witness for C9 at a concrete environment whose path-load returns a
supported oversized image. -/
theorem validate_image_too_large_unreachable_witness :
    (initState "img.png".data "user1".data 0).image_data = Option.none ∧
    (validateImageNode
        { exEnv with openPath := fun _ =>
            Except.ok (PILImage.mk "PNG".data
              (List.replicate (MAX_IMAGE_SIZE + 1) 0)) }
        (initState "img.png".data "user1".data 0)).error_message ≠
      some "Image too large for processing".data :=
  validate_image_too_large_unreachable
    { exEnv with openPath := fun _ =>
        Except.ok (PILImage.mk "PNG".data
          (List.replicate (MAX_IMAGE_SIZE + 1) 0)) }
    "img.png".data "user1".data 0

/-! ### C10 — preprocessing re-encodes even when no filter applies -/

/-- C10: whenever `preprocess_image_node` runs with `needs_preprocessing`
set and completes without an exception (the image decodes), and none of the
issue keywords "blur"/"contrast"/"noise" occur in the issue list's string
form, the node still replaces `image_data` with the PNG re-encoding of the
(unfiltered) decoded image, and leaves every other field unchanged. -/
theorem preprocess_reencodes_without_filters (env : PipeEnv) (s : WState)
    (d : List Nat) (img : ImgMat)
    (hnp : s.needs_preprocessing = true)
    (hd : s.image_data = some d)
    (hdec : env.cvDecode d = .ok img)
    (hb : strContains (asciiLower (pyRepr s.quality_issues)) "blur".data = false)
    (hc : strContains (asciiLower (pyRepr s.quality_issues)) "contrast".data = false)
    (hn : strContains (asciiLower (pyRepr s.quality_issues)) "noise".data = false) :
    preprocessImageNode env s = { s with image_data := some (env.pngEncode img) } := by
  simp [preprocessImageNode, hnp, hd, hdec, hb, hc, hn]

/-- Witness for C10: a state with an empty issue list (whose `str` is `[]`,
matching no keyword) still gets its bytes replaced by the re-encoding. -/
theorem preprocess_reencodes_without_filters_witness :
    preprocessImageNode exEnv
        { initState "p".data "u".data 0 with
            needs_preprocessing := true, image_data := some [1, 2, 3] } =
      { initState "p".data "u".data 0 with
          needs_preprocessing := true, image_data := some [7, 7] } := by
  have h := preprocess_reencodes_without_filters exEnv
    { initState "p".data "u".data 0 with
        needs_preprocessing := true, image_data := some [1, 2, 3] }
    [1, 2, 3] { pixels := [] } rfl rfl rfl
    (by simp [pyRepr, pyReprList, initState, asciiLower, lowerChar, strContains,
      headMatches])
    (by simp [pyRepr, pyReprList, initState, asciiLower, lowerChar, strContains,
      headMatches])
    (by simp [pyRepr, pyReprList, initState, asciiLower, lowerChar, strContains,
      headMatches])
  exact h

/-! ### C6 — quality assessment bounds -/

theorem clamp01_bounds (q : ℚ) : 0 ≤ clamp01 q ∧ clamp01 q ≤ 1 :=
  ⟨le_min (by norm_num) (le_max_left 0 q), min_le_left _ _⟩

theorem pySliceN_len {n : Nat} {v w : PyVal} (h : pySliceN n v = .ok w) :
    pyLen w ≤ n := by
  cases v <;> simp [pySliceN] at h <;> subst h <;>
    simp [pyLen, List.length_take]

theorem except_bind_ok {α β γ : Type} {x : Except γ α} {f : α → Except γ β}
    {r : β} (h : x.bind f = .ok r) : ∃ a, x = .ok a ∧ f a = .ok r := by
  cases x with
  | ok a => exact ⟨a, rfl, h⟩
  | error e => simp [Except.bind] at h

theorem parseQualityJSON_ok_shape (env : PipeEnv) (resp : List Char)
    (r : QualityParse) (h : parseQualityJSON env resp = .ok r) :
    (∃ x, r.score = clamp01 x) ∧ pyLen r.issues ≤ 5 ∧
      pyLen r.recommendations ≤ 5 := by
  unfold parseQualityJSON at h
  split at h
  · exact absurd h (by simp)
  · obtain ⟨d, -, h⟩ := except_bind_ok h
    obtain ⟨sv, -, h⟩ := except_bind_ok h
    obtain ⟨cls, -, h⟩ := except_bind_ok h
    obtain ⟨iss, hiss, h⟩ := except_bind_ok h
    obtain ⟨recs, hrecs, h⟩ := except_bind_ok h
    injection h with h2
    subst h2
    exact ⟨⟨sv, rfl⟩, pySliceN_len hiss, pySliceN_len hrecs⟩

theorem parseQualityResponse_score_bounds (env : PipeEnv) (resp : List Char) :
    0 ≤ (parseQualityResponse env resp).score ∧
      (parseQualityResponse env resp).score ≤ 1 := by
  unfold parseQualityResponse
  cases hj : parseQualityJSON env resp with
  | ok r =>
    obtain ⟨⟨x, hx⟩, -, -⟩ := parseQualityJSON_ok_shape env resp r hj
    simpa [hx] using clamp01_bounds x
  | error e => exact clamp01_bounds _

theorem parseQualityResponse_list_caps (env : PipeEnv) (resp : List Char) :
    pyLen (parseQualityResponse env resp).issues ≤ 5 ∧
      pyLen (parseQualityResponse env resp).recommendations ≤ 5 := by
  unfold parseQualityResponse
  cases hj : parseQualityJSON env resp with
  | ok r =>
    obtain ⟨-, hi, hr⟩ := parseQualityJSON_ok_shape env resp r hj
    simpa using ⟨hi, hr⟩
  | error e =>
    constructor
    · simp only [parseQualityFallback, pyLen]
      calc (List.map PyVal.pstr (List.take 3 _)).length
          = (List.take 3 _).length := List.length_map _ _
        _ ≤ 3 := by simp [List.length_take]
        _ ≤ 5 := by norm_num
    · simp [parseQualityFallback, pyLen]

/-- C6: with `should_proceed` set (so the stage actually consults the AI),
the state after `assess_quality_node` always carries a quality score in
`[0, 1]` and a classification among HIGH/MEDIUM/LOW — whatever the response
string, the JSON loader and the string-to-float conversions do — and the
parser's issue and recommendation lists never exceed 5 items. -/
theorem assess_quality_bounds (env : PipeEnv) (s : WState)
    (hsp : s.should_proceed = true) :
    (∃ q, (assessQualityNode env s).quality_score = some q ∧ 0 ≤ q ∧ q ≤ 1) ∧
    ((assessQualityNode env s).quality_classification = some ImageQuality.high ∨
      (assessQualityNode env s).quality_classification = some ImageQuality.medium ∨
      (assessQualityNode env s).quality_classification = some ImageQuality.low) ∧
    (∀ resp, pyLen (parseQualityResponse env resp).issues ≤ 5 ∧
      pyLen (parseQualityResponse env resp).recommendations ≤ 5) := by
  refine ⟨?_, ?_, fun resp => parseQualityResponse_list_caps env resp⟩
  · unfold assessQualityNode
    simp only [hsp]
    cases hd : s.image_data with
    | none => exact ⟨3 / 10, by simp [assessExceptState], by norm_num, by norm_num⟩
    | some d =>
      simp only
      cases hv : env.geminiVision d with
      | error e => exact ⟨3 / 10, by simp [assessExceptState], by norm_num, by norm_num⟩
      | ok resp =>
        simp only
        cases hiq : toImageQuality (asciiLower (parseQualityResponse env resp).classification) with
        | none => exact ⟨3 / 10, by simp [assessExceptState], by norm_num, by norm_num⟩
        | some qv =>
          refine ⟨(parseQualityResponse env resp).score, by simp, ?_, ?_⟩
          · exact (parseQualityResponse_score_bounds env resp).1
          · exact (parseQualityResponse_score_bounds env resp).2
  · unfold assessQualityNode
    simp only [hsp]
    cases hd : s.image_data with
    | none => right; right; simp [assessExceptState]
    | some d =>
      simp only
      cases hv : env.geminiVision d with
      | error e => right; right; simp [assessExceptState]
      | ok resp =>
        simp only
        cases hiq : toImageQuality (asciiLower (parseQualityResponse env resp).classification) with
        | none => right; right; simp [assessExceptState]
        | some qv =>
          cases qv with
          | high => left; simp
          | medium => right; left; simp
          | low => right; right; simp

/-- Witness for C6 at the shared environment (failing JSON loader, fixed
response) and a fresh state. -/
theorem assess_quality_bounds_witness :
    (∃ q, (assessQualityNode exEnv (initState "p".data "u".data 0)).quality_score =
        some q ∧ 0 ≤ q ∧ q ≤ 1) ∧
    ((assessQualityNode exEnv (initState "p".data "u".data 0)).quality_classification =
        some ImageQuality.high ∨
      (assessQualityNode exEnv (initState "p".data "u".data 0)).quality_classification =
        some ImageQuality.medium ∨
      (assessQualityNode exEnv (initState "p".data "u".data 0)).quality_classification =
        some ImageQuality.low) :=
  ⟨(assess_quality_bounds exEnv (initState "p".data "u".data 0) rfl).1,
   (assess_quality_bounds exEnv (initState "p".data "u".data 0) rfl).2.1⟩

/-! ### C4 — merger determinism, deduplication and cap -/

/-- The key used by `_deduplicate_quiz_questions`. -/
def quizKey (q : QuizQ) : List Char := asciiLower (pyStrip q.question)

theorem dedupQuizAux_sound : ∀ (l : List QuizQ) (seen : List (List Char)),
    (∀ q ∈ dedupQuizAux l seen, quizKey q ∉ seen) ∧
    (dedupQuizAux l seen).Pairwise (fun a b => quizKey a ≠ quizKey b) ∧
    (dedupQuizAux l seen).Sublist l := by
  intro l
  induction l with
  | nil => intro seen; simp [dedupQuizAux]
  | cons q rest ih =>
    intro seen
    by_cases hc : asciiLower (pyStrip q.question) ≠ [] ∧
        asciiLower (pyStrip q.question) ∉ seen
    · simp only [dedupQuizAux, if_pos hc]
      obtain ⟨ihMem, ihPw, ihSub⟩ := ih (asciiLower (pyStrip q.question) :: seen)
      refine ⟨?_, ?_, ?_⟩
      · intro p hp
        rcases List.mem_cons.mp hp with h | h
        · subst h; exact hc.2
        · have := ihMem p h
          intro hs
          exact this (List.mem_cons_of_mem _ hs)
      · refine List.pairwise_cons.mpr ⟨?_, ihPw⟩
        intro p hp
        have := ihMem p hp
        intro he
        exact this (by rw [← he]; exact List.mem_cons_self _ _)
      · exact List.Sublist.cons₂ q ihSub
    · simp only [dedupQuizAux, if_neg hc]
      obtain ⟨ihMem, ihPw, ihSub⟩ := ih seen
      exact ⟨ihMem, ihPw, ihSub.trans (List.sublist_cons_self q rest)⟩

/-- C4: `merge_chunk_results` is deterministic (merging the same input
twice yields identical output); its merged quiz list never holds two
questions with the same trimmed, lower-cased text (first pooled occurrence
wins — the list is an order-preserving sublist of the pool); and it holds
at most 15 questions. -/
theorem merge_chunk_results_props (chunks : List DocumentChunk)
    (rs : List ChunkEntry) :
    (∀ (chunks2 : List DocumentChunk) (rs2 : List ChunkEntry),
      chunks = chunks2 → rs = rs2 →
      mergeChunkResults chunks rs = mergeChunkResults chunks2 rs2) ∧
    (mergeChunkResults chunks rs).merged_quiz.Pairwise
      (fun a b => quizKey a ≠ quizKey b) ∧
    (mergeChunkResults chunks rs).merged_quiz.Sublist (quizPool rs) ∧
    (mergeChunkResults chunks rs).merged_quiz.length ≤ 15 := by
  refine ⟨?_, ?_, ?_, ?_⟩
  · intro chunks2 rs2 h1 h2; subst h1; subst h2; rfl
  · have hsub : (mergeChunkResults chunks rs).merged_quiz.Sublist
        (deduplicateQuizQuestions (quizPool rs)) := by
      simp only [mergeChunkResults]
      exact List.take_sublist _ _
    exact List.Pairwise.sublist hsub (dedupQuizAux_sound (quizPool rs) []).2.1
  · have hsub : (mergeChunkResults chunks rs).merged_quiz.Sublist
        (deduplicateQuizQuestions (quizPool rs)) := by
      simp only [mergeChunkResults]
      exact List.take_sublist _ _
    exact hsub.trans (dedupQuizAux_sound (quizPool rs) []).2.2
  · simp only [mergeChunkResults]
    simp [List.length_take]

/-- A concrete chunk-result entry whose quiz repeats one question. -/
def exEntry : ChunkEntry where
  chunk_id := "chunk_0".data
  error := Option.none
  summary := some "a summary".data
  explanation := some "an explanation".data
  quiz := some
    [{ question := "What is X?".data, question_type := "short_answer".data,
       options := [], correct_answer := "X".data, explanation := "e".data,
       difficulty := "easy".data, topic := "t".data },
     { question := " what is x? ".data, question_type := "short_answer".data,
       options := [], correct_answer := "X".data, explanation := "e".data,
       difficulty := "easy".data, topic := "t".data }]
  has_math := false
  has_chemical := false
  has_supersub := false
  word_count := some 2
  character_count := some 9

/-- Witness for C4 at a concrete two-duplicate pool. -/
theorem merge_chunk_results_props_witness :
    mergeChunkResults [] [exEntry] = mergeChunkResults [] [exEntry] ∧
      (mergeChunkResults [] [exEntry]).merged_quiz.length ≤ 15 :=
  ⟨(merge_chunk_results_props [] [exEntry]).1 [] [exEntry] rfl rfl,
   (merge_chunk_results_props [] [exEntry]).2.2.2⟩

/-! ### C7 — parallel chunk processing is order-preserving and
fault-isolated -/

theorem listBatchesGo_flatten {α : Type} (n : Nat) (hn : 1 ≤ n) :
    ∀ (fuel : Nat) (l : List α), l.length ≤ fuel →
      (listBatchesGo n fuel l).flatten = l := by
  intro fuel
  induction fuel with
  | zero =>
    intro l h
    cases l with
    | nil => simp [listBatchesGo]
    | cons a t => simp at h
  | succ m ih =>
    intro l h
    cases l with
    | nil => simp [listBatchesGo]
    | cons a t =>
      simp only [listBatchesGo, List.flatten_cons]
      rw [ih ((a :: t).drop n)
        (by simp only [List.length_drop, List.length_cons]
            simp only [List.length_cons] at h
            omega)]
      exact List.take_append_drop n (a :: t)

theorem listBatches_flatten {α : Type} (n : Nat) (hn : 1 ≤ n) (l : List α) :
    (listBatches n l).flatten = l :=
  listBatchesGo_flatten n hn l.length l le_rfl

theorem processChunksParallel_eq_map (env : PipeEnv)
    (exO : Nat → Option (List Char)) (orig : WState)
    (chunks : List DocumentChunk) (maxC : Nat) (h : 1 ≤ maxC) :
    processChunksParallel env exO orig chunks maxC =
      chunks.enum.map (fun ic => processSingleChunk env exO orig ic.2 ic.1) := by
  unfold processChunksParallel
  rw [if_neg (by omega), ← List.map_flatten, listBatches_flatten maxC h]

/-- C7: with any concurrency bound ≥ 1, the parallel chunk processor yields
exactly one result entry per input chunk, in input order; the entry for
chunk `i` is exactly the result of processing chunk `i` alone (so a failure
of one chunk cannot disturb its siblings or later batches); and when the
task for chunk `i` raises, its entry is the error dict carrying the raised
message and the chunk's precomputed `has_math`/`has_chemical`/`has_supersub`
flags. -/
theorem process_chunks_parallel_isolation (env : PipeEnv)
    (exO : Nat → Option (List Char)) (orig : WState)
    (chunks : List DocumentChunk) (maxC : Nat) (h : 1 ≤ maxC) :
    (processChunksParallel env exO orig chunks maxC).length = chunks.length ∧
    (∀ (i : Nat) (hi : i < chunks.length)
        (hi2 : i < (processChunksParallel env exO orig chunks maxC).length),
      (processChunksParallel env exO orig chunks maxC).get ⟨i, hi2⟩ =
        processSingleChunk env exO orig (chunks.get ⟨i, hi⟩) i) ∧
    (∀ (i : Nat) (hi : i < chunks.length)
        (hi2 : i < (processChunksParallel env exO orig chunks maxC).length)
        (e : List Char), exO i = some e →
      (processChunksParallel env exO orig chunks maxC).get ⟨i, hi2⟩ =
        { chunk_id := (chunks.get ⟨i, hi⟩).chunk_id, error := some e,
          summary := Option.none, explanation := Option.none,
          quiz := Option.none,
          has_math := (chunks.get ⟨i, hi⟩).has_math,
          has_chemical := (chunks.get ⟨i, hi⟩).has_chemical,
          has_supersub := (chunks.get ⟨i, hi⟩).has_supersub,
          word_count := Option.none, character_count := Option.none }) := by
  have hmap := processChunksParallel_eq_map env exO orig chunks maxC h
  refine ⟨?_, ?_, ?_⟩
  · rw [hmap]; simp [List.enum_length]
  · intro i hi hi2
    simp only [hmap, List.get_eq_getElem, List.getElem_map, List.getElem_enum]
  · intro i hi hi2 e he
    simp only [hmap, List.get_eq_getElem, List.getElem_map, List.getElem_enum]
    simp [processSingleChunk, he]

/-- Witness for C7: two chunks, the first raising, the second succeeding. -/
theorem process_chunks_parallel_isolation_witness :
    (processChunksParallel exEnv
        (fun i => if i = 0 then some "boom".data else Option.none)
        (initState "p".data "u".data 0)
        [mkDocumentChunk "chunk_0".data "alpha text".data 0 10 0,
         mkDocumentChunk "chunk_1".data "beta text".data 10 19 0] 3).length = 2 :=
  (process_chunks_parallel_isolation exEnv
    (fun i => if i = 0 then some "boom".data else Option.none)
    (initState "p".data "u".data 0)
    [mkDocumentChunk "chunk_0".data "alpha text".data 0 10 0,
     mkDocumentChunk "chunk_1".data "beta text".data 10 19 0] 3
    (by norm_num)).1

/-! ### C3 — extraction fallback (corrected)

The claim as stated fails on the code: when the preferred backend is
GOOGLE_VISION (with a client) or GEMINI_VISION, a raised exception or an
empty result yields empty text with no fallback attempt, and
`processing_tool_used` is never rewritten by extraction.  The fallback
chain exists only inside `_extract_basic_text`. -/

/-- An environment in which the preferred Google Vision backend raises but
the alternative engines would succeed. -/
def c3Env : PipeEnv :=
  { exEnv with googleVision := fun _ => .error "quota exceeded".data,
               visionAvailable := true }

def c3State : WState :=
  { initState "p".data "u".data 0 with
      image_data := some [1],
      processing_tool_used := some ProcessingTool.google_vision }

/-- Counterexample to C3 as stated: the preferred backend raises and an
alternative backend would return non-empty text, yet the node stores the
empty string (no fallback ran) and `tool_used` still names the preferred
backend. -/
theorem extract_text_fallback_counterexample :
    (extractTextNode c3Env c3State).extracted_text = some [] ∧
    (extractTextNode c3Env c3State).processing_tool_used =
      some ProcessingTool.google_vision ∧
    pyStrip (extractBasicText c3Env (some [1])) ≠ [] := by
  refine ⟨rfl, rfl, by decide⟩

/-- `_extract_basic_text`'s EasyOCR attempt failed or produced only
whitespace. -/
def easyFails (env : PipeEnv) (b : List Nat) : Prop :=
  (∃ e, env.easyocr b = .error e) ∨ (∃ t, env.easyocr b = .ok t ∧ pyStrip t = [])

/-- `_extract_basic_text`'s Tesseract attempt failed or produced only
whitespace. -/
def tessFails (env : PipeEnv) (b : List Nat) : Prop :=
  (∃ e, env.tesseract b = .error e) ∨ (∃ t, env.tesseract b = .ok t ∧ pyStrip t = [])

/-- C3 (amended): extraction never rewrites `processing_tool_used`; the
preferred GOOGLE_VISION (with client) and GEMINI_VISION backends get a
single attempt whose (possibly empty) text is stored as-is; every other
preference runs `_extract_basic_text`, whose ordered fallback chain is
EasyOCR → Tesseract → Google Vision (when available) → a fixed failure
message, each stage accepted only when its stripped text is non-empty. -/
theorem extract_text_fallback_chain (env : PipeEnv) (s : WState)
    (hsp : s.should_proceed = true) :
    (extractTextNode env s).processing_tool_used = s.processing_tool_used ∧
    (s.processing_tool_used = some ProcessingTool.google_vision →
      env.visionAvailable = true →
      (extractTextNode env s).extracted_text =
        some (extractWithGoogleVision env s.image_data).1) ∧
    (s.processing_tool_used = some ProcessingTool.gemini_vision →
      (extractTextNode env s).extracted_text =
        some (extractWithGeminiVision env s.image_data).1) ∧
    (¬ (s.processing_tool_used = some ProcessingTool.google_vision ∧
          env.visionAvailable = true) →
      s.processing_tool_used ≠ some ProcessingTool.gemini_vision →
      (extractTextNode env s).extracted_text =
        some (extractBasicText env s.image_data)) ∧
    (∀ b t, env.easyocr b = .ok t → pyStrip t ≠ [] →
      extractBasicText env (some b) = pyStrip t) ∧
    (∀ b t, easyFails env b → env.tesseract b = .ok t → pyStrip t ≠ [] →
      extractBasicText env (some b) = pyStrip t) ∧
    (∀ b t, easyFails env b → tessFails env b → env.visionAvailable = true →
      env.googleVision b = .ok (some t) → pyStrip t ≠ [] →
      extractBasicText env (some b) = pyStrip t) ∧
    (∀ b, easyFails env b → tessFails env b →
      (env.visionAvailable = false ∨
        pyStrip (extractWithGoogleVision env (some b)).1 = []) →
      extractBasicText env (some b) = extractionFailedMsg) := by
  have hbasic1 : ∀ b t, env.easyocr b = .ok t → pyStrip t ≠ [] →
      extractBasicText env (some b) = pyStrip t := by
    intro b t he hne
    simp [extractBasicText, he, hne]
  have hbasic2 : ∀ b t, easyFails env b → env.tesseract b = .ok t →
      pyStrip t ≠ [] → extractBasicText env (some b) = pyStrip t := by
    intro b t hef ht hne
    rcases hef with ⟨e, he⟩ | ⟨t0, he, hstrip⟩
    · simp [extractBasicText, he, ht, hne]
    · simp [extractBasicText, he, hstrip, ht, hne]
  have hbasic3 : ∀ b t, easyFails env b → tessFails env b →
      env.visionAvailable = true → env.googleVision b = .ok (some t) →
      pyStrip t ≠ [] → extractBasicText env (some b) = pyStrip t := by
    intro b t hef htf hav hg hne
    rcases hef with ⟨e, he⟩ | ⟨t0, he, hstrip⟩ <;>
      rcases htf with ⟨e2, ht⟩ | ⟨t1, ht, hstrip2⟩
    · simp [extractBasicText, he, ht, hav, extractWithGoogleVision, hg, hne]
    · simp [extractBasicText, he, ht, hstrip2, hav, extractWithGoogleVision,
        hg, hne]
    · simp [extractBasicText, he, hstrip, ht, hav, extractWithGoogleVision,
        hg, hne]
    · simp [extractBasicText, he, hstrip, ht, hstrip2, hav,
        extractWithGoogleVision, hg, hne]
  have hbasic4 : ∀ b, easyFails env b → tessFails env b →
      (env.visionAvailable = false ∨
        pyStrip (extractWithGoogleVision env (some b)).1 = []) →
      extractBasicText env (some b) = extractionFailedMsg := by
    intro b hef htf hv
    rcases hef with ⟨e, he⟩ | ⟨t0, he, hstrip⟩ <;>
      rcases htf with ⟨e2, ht⟩ | ⟨t1, ht, hstrip2⟩ <;>
      rcases hv with hv | hv
    · simp [extractBasicText, he, ht, hv]
    · simp [extractBasicText, he, ht, hv]
    · simp [extractBasicText, he, ht, hstrip2, hv]
    · simp [extractBasicText, he, ht, hstrip2, hv]
    · simp [extractBasicText, he, hstrip, ht, hv]
    · simp [extractBasicText, he, hstrip, ht, hv]
    · simp [extractBasicText, he, hstrip, ht, hstrip2, hv]
    · simp [extractBasicText, he, hstrip, ht, hstrip2, hv]
  refine ⟨?_, ?_, ?_, ?_, hbasic1, hbasic2, hbasic3, hbasic4⟩
  · unfold extractTextNode
    rw [hsp, if_neg (by simp : ¬ (true = false))]
    split <;> rfl
  · intro hgv hav
    have htool : extractToolResult env s = extractWithGoogleVision env s.image_data := by
      unfold extractToolResult
      rw [if_pos (by exact ⟨hgv, hav⟩)]
    unfold extractTextNode
    rw [hsp, if_neg (by simp : ¬ (true = false)), htool]
    split <;> rfl
  · intro hgem
    have hne : ¬ (s.processing_tool_used = some ProcessingTool.google_vision ∧
        env.visionAvailable = true) := by
      rintro ⟨h1, -⟩
      rw [hgem] at h1
      simp at h1
    have htool : extractToolResult env s = extractWithGeminiVision env s.image_data := by
      unfold extractToolResult
      rw [if_neg hne, if_pos hgem]
    unfold extractTextNode
    rw [hsp, if_neg (by simp : ¬ (true = false)), htool]
    split <;> rfl
  · intro h1 h2
    have htool : extractToolResult env s = (extractBasicText env s.image_data, 7 / 10) := by
      unfold extractToolResult
      rw [if_neg h1, if_neg h2]
    unfold extractTextNode
    rw [hsp, if_neg (by simp : ¬ (true = false)), htool]
    split <;> rfl

/-- Witness for C3 (amended) at the counterexample environment. -/
theorem extract_text_fallback_chain_witness :
    (extractTextNode c3Env c3State).processing_tool_used =
        c3State.processing_tool_used ∧
    (extractTextNode c3Env c3State).extracted_text =
      some (extractWithGoogleVision c3Env c3State.image_data).1 :=
  ⟨(extract_text_fallback_chain c3Env c3State rfl).1,
   (extract_text_fallback_chain c3Env c3State rfl).2.1 rfl rfl⟩

/-! ### C8 — the chunk-end break-point rule -/

theorem findSome?_some_inv {α β : Type} (f : α → Option β) :
    ∀ (l : List α) (b : β), l.findSome? f = some b → ∃ a ∈ l, f a = some b := by
  intro l
  induction l with
  | nil => intro b h; simp [List.findSome?_nil] at h
  | cons a t ih =>
    intro b h
    rw [List.findSome?_cons] at h
    cases hf : f a with
    | some c =>
      simp only [hf] at h
      exact ⟨a, List.mem_cons_self _ _, by rw [hf, h]⟩
    | none =>
      simp only [hf] at h
      obtain ⟨x, hx, hfx⟩ := ih b h
      exact ⟨x, List.mem_cons_of_mem _ hx, hfx⟩

/-- C8: for a chunk whose proposed end `start + chunk_size` is strictly
inside the text, the chosen end is produced by scanning the five backward
searches (paragraph break, line break, `'. '`, `'! '`, `'? '` — in that
priority order, first accepted wins), accepting a position only when it is
strictly past 70% of `chunk_size` from `start`; if no candidate is
accepted, the raw boundary `start + chunk_size` stands; and any
non-raw end comes from an accepted candidate of one of the five
searches. -/
theorem chunk_end_break_point_rule (text : List Char) (cs start : Nat)
    (h : start + cs < text.length) :
    chunkEnd text cs start =
      ((breakSubs.map (fun sub => rfind text sub start (start + cs))).findSome?
          (acceptBreak cs start)).getD (start + cs) ∧
    (∀ bp, rfind text "\n\n".data start (start + cs) = some bp →
      10 * bp > 10 * start + 7 * cs → chunkEnd text cs start = bp + 1) ∧
    ((∀ sub ∈ breakSubs,
        acceptBreak cs start (rfind text sub start (start + cs)) = Option.none) →
      chunkEnd text cs start = start + cs) ∧
    (chunkEnd text cs start ≠ start + cs →
      ∃ bp sub, sub ∈ breakSubs ∧ rfind text sub start (start + cs) = some bp ∧
        10 * bp > 10 * start + 7 * cs ∧ chunkEnd text cs start = bp + 1) := by
  have he0 : min (start + cs) text.length = start + cs := min_eq_left (le_of_lt h)
  have hlt : start + cs < text.length := h
  have hceq : chunkEnd text cs start =
      ((breakSubs.map (fun sub => rfind text sub start (start + cs))).findSome?
          (acceptBreak cs start)).getD (start + cs) := by
    unfold chunkEnd bestBreak
    rw [he0, if_pos hlt]
    cases hf : (breakSubs.map (fun sub => rfind text sub start (start + cs))).findSome?
        (acceptBreak cs start) <;> simp [hf]
  refine ⟨hceq, ?_, ?_, ?_⟩
  · intro bp hbp hacc
    rw [hceq]
    simp only [breakSubs, List.map_cons, List.findSome?_cons, hbp]
    simp [acceptBreak, hacc]
  · intro hall
    rw [hceq]
    have : (breakSubs.map (fun sub => rfind text sub start (start + cs))).findSome?
        (acceptBreak cs start) = Option.none := by
      rw [List.findSome?_eq_none_iff]
      intro x hx
      obtain ⟨sub, hsub, rfl⟩ := List.mem_map.mp hx
      exact hall sub hsub
    simp [this]
  · intro hne
    rw [hceq] at hne ⊢
    cases hf : (breakSubs.map (fun sub => rfind text sub start (start + cs))).findSome?
        (acceptBreak cs start) with
    | none => exact absurd (by simp [hf]) hne
    | some b =>
      obtain ⟨x, hx, hfx⟩ := findSome?_some_inv _ _ _ hf
      obtain ⟨sub, hsub, rfl⟩ := List.mem_map.mp hx
      cases hr : rfind text sub start (start + cs) with
      | none =>
        rw [hr] at hfx
        simp [acceptBreak] at hfx
      | some bp =>
        rw [hr] at hfx
        simp only [acceptBreak] at hfx
        by_cases hacc : 10 * bp > 10 * start + 7 * cs
        · rw [if_pos hacc] at hfx
          injection hfx with hfx
          exact ⟨bp, sub, hsub, hr, hacc, by simp [hf, ← hfx]⟩
        · rw [if_neg hacc] at hfx
          exact Option.noConfusion hfx

/-- Witness for C8: in `"ab. cdefghij"` with `chunk_size = 10` from
`start = 0`, the only sentence break sits at 70% × 10 = 7 exactly…
(here: a text whose `'. '` break is accepted). -/
theorem chunk_end_break_point_rule_witness :
    chunkEnd "abcdefgh. zzzz".data 10 0 = 9 ∧
      (0 : Nat) + 10 < "abcdefgh. zzzz".data.length := by
  constructor
  · have h := chunk_end_break_point_rule "abcdefgh. zzzz".data 10 0 (by decide)
    rw [h.1]
    decide
  · decide

/-! ### C2 — chunk reconstruction (corrected)

`_preserve_math_at_boundary` splices `complete_match.group(0) +
chunk_content[complete_match.end():]`, where `complete_match.end()` is an
index into the *window* of the full text, applied to the chunk content —
so with `preserve_math` enabled the reconstruction invariant fails
(counterexample below).  With `preserve_math` disabled it holds whenever
`overlap_size` does not exceed 70% of `chunk_size` (overlap prefixes then
remove exactly the duplicated region). -/

theorem chunkEnd_cases (text : List Char) (cs start : Nat) :
    chunkEnd text cs start = min (start + cs) text.length ∨
    ∃ bp sub, sub ∈ breakSubs ∧
      rfind text sub start (min (start + cs) text.length) = some bp ∧
      10 * bp > 10 * start + 7 * cs ∧ chunkEnd text cs start = bp + 1 := by
  unfold chunkEnd
  by_cases hlt : min (start + cs) text.length < text.length
  · rw [if_pos hlt]
    cases hf : bestBreak text cs start (min (start + cs) text.length) with
    | none => left; rfl
    | some b =>
      right
      have hinv := hf
      unfold bestBreak at hinv
      obtain ⟨x, hx, hfx⟩ := findSome?_some_inv _ _ _ hinv
      obtain ⟨sub, hsub, rfl⟩ := List.mem_map.mp hx
      cases hr : rfind text sub start (min (start + cs) text.length) with
      | none =>
        rw [hr] at hfx
        simp [acceptBreak] at hfx
      | some bp =>
        rw [hr] at hfx
        simp only [acceptBreak] at hfx
        by_cases hacc : 10 * bp > 10 * start + 7 * cs
        · rw [if_pos hacc] at hfx
          injection hfx with hfx
          exact ⟨bp, sub, hsub, hr, hacc, by simp [hf, ← hfx]⟩
        · rw [if_neg hacc] at hfx
          exact Option.noConfusion hfx
  · rw [if_neg hlt]
    left
    rfl

theorem breakSubs_len : ∀ sub ∈ breakSubs, 1 ≤ sub.length := by decide

theorem chunkEnd_le (text : List Char) (cs start : Nat) :
    chunkEnd text cs start ≤ text.length := by
  rcases chunkEnd_cases text cs start with h | ⟨bp, sub, hsub, hr, -, h⟩
  · rw [h]; exact min_le_right _ _
  · rw [h]
    have hb := rfind_bounds hr
    have hs := breakSubs_len sub hsub
    have : min (start + cs) text.length ≤ text.length := min_le_right _ _
    omega

theorem chunkEnd_gt (text : List Char) (cs start : Nat) (hcs : 1 ≤ cs)
    (hstart : start < text.length) : start < chunkEnd text cs start := by
  rcases chunkEnd_cases text cs start with h | ⟨bp, sub, hsub, hr, hacc, h⟩
  · rw [h]
    exact lt_min (by omega) hstart
  · rw [h]
    omega

theorem chunkEnd_ov_zero (text : List Char) (cs ov : Nat)
    (hov : 10 * ov ≤ 7 * cs) (_hlen : 0 < text.length) :
    ov ≤ chunkEnd text cs 0 ∨ text.length ≤ chunkEnd text cs 0 := by
  rcases chunkEnd_cases text cs 0 with h | ⟨bp, sub, hsub, hr, hacc, h⟩
  · rw [h]
    rcases le_total cs text.length with hc | hc
    · left
      rw [min_eq_left (by omega : 0 + cs ≤ text.length)]
      omega
    · right
      rw [min_eq_right (by omega : text.length ≤ 0 + cs)]
  · rw [h]
    left
    omega

theorem createChunksLoop_reconstruct (text : List Char) (cs ov : Nat)
    (hcs : 1 ≤ cs) (hov : 10 * ov ≤ 7 * cs) :
    ∀ (fuel start idx : Nat), text.length - start ≤ fuel →
      (idx = 0 → start = 0) →
      (1 ≤ idx → ov ≤ start ∨ text.length ≤ start) →
      ((createChunksLoop text cs ov false start idx fuel).map
          (fun c => c.content.drop c.overlap_size)).flatten = text.drop start := by
  intro fuel
  induction fuel with
  | zero =>
    intro start idx hfuel h0 h1
    have hge : text.length ≤ start := by omega
    simp [createChunksLoop, List.drop_eq_nil_of_le hge]
  | succ m ih =>
    intro start idx hfuel h0 h1
    by_cases hstart : start < text.length
    · have hgt := chunkEnd_gt text cs start hcs hstart
      have hle := chunkEnd_le text cs start
      have hnext : 1 ≤ idx + 1 →
          ov ≤ chunkEnd text cs start ∨ text.length ≤ chunkEnd text cs start := by
        intro _
        cases idx with
        | zero =>
          have hs0 : start = 0 := h0 rfl
          subst hs0
          exact chunkEnd_ov_zero text cs ov hov hstart
        | succ k =>
          rcases h1 (by omega) with h | h
          · left; omega
          · omega
      simp only [createChunksLoop, if_pos hstart, List.map_cons,
        List.flatten_cons]
      rw [ih (chunkEnd text cs start) (idx + 1) (by omega) (by omega) hnext]
      have hcontent : chunkContentAt text cs ov false start idx =
          chunkRawAt text cs ov start idx := by
        simp [chunkContentAt]
      simp only [mkDocumentChunk, hcontent]
      cases idx with
      | zero =>
        have hs0 : start = 0 := h0 rfl
        subst hs0
        simp only [chunkRawAt, chunkStartAt, gt_iff_lt, lt_irrefl, if_false,
          Nat.sub_zero, List.drop_zero]
        rw [List.take_append_drop]
      | succ k =>
        have hovs : ov ≤ start := by
          rcases h1 (by omega) with h | h
          · exact h
          · omega
        have hpos : k + 1 > 0 := by omega
        simp only [chunkRawAt, chunkStartAt, if_pos hpos]
        rw [List.drop_take, List.drop_drop]
        have e1 : start - ov + ov = start := by omega
        have e2 : chunkEnd text cs start - (start - ov) - ov =
            chunkEnd text cs start - start := by omega
        rw [e1, e2]
        have e3 : text.drop (chunkEnd text cs start) =
            (text.drop start).drop (chunkEnd text cs start - start) := by
          rw [List.drop_drop]
          congr 1
          omega
        rw [e3, List.take_append_drop]
    · have hge : text.length ≤ start := by omega
      simp [createChunksLoop, hstart, List.drop_eq_nil_of_le hge]

/-- C2 (amended): a text no longer than `chunk_size` yields exactly one
chunk whose content is the text (for any settings); for longer texts,
concatenating the chunks' contents with each chunk's recorded overlap
prefix removed reconstructs the text exactly whenever `preserve_math` is
disabled and `overlap_size` is at most 70% of `chunk_size`. -/
theorem create_chunks_reconstruction (text : List Char) (cs ov : Nat)
    (hcs : 1 ≤ cs) (hov : 10 * ov ≤ 7 * cs) :
    (∀ pm, text.length ≤ cs →
      ∃ c, createChunks text cs ov pm = [c] ∧ c.content = text) ∧
    ((createChunks text cs ov false).map
        (fun c => c.content.drop c.overlap_size)).flatten = text := by
  constructor
  · intro pm hlen
    refine ⟨mkDocumentChunk ("chunk_".data ++ natRepr 0) text 0 text.length 0, ?_, rfl⟩
    unfold createChunks
    rw [if_pos hlen]
  · by_cases hlen : text.length ≤ cs
    · unfold createChunks
      rw [if_pos hlen]
      simp [mkDocumentChunk]
    · unfold createChunks
      rw [if_neg hlen]
      have := createChunksLoop_reconstruct text cs ov hcs hov (text.length + 1) 0 0
        (by omega) (fun _ => rfl) (by omega)
      simpa using this

/-- The text of the C2 counterexample: an unclosed `$` in the overlap
region of the second chunk triggers the math-preservation splice, whose
window-relative `match.end()` cuts the chunk content. -/
def c2Text : List Char := "aaaaaaaab$cc$ddddd".data

/-- Counterexample to C2 as stated: with `preserve_math` enabled (its
default), `chunk_size = 10` and `overlap_size = 2`, the 18-character text
is not reconstructed by concatenating the chunk contents with overlap
prefixes removed. -/
theorem create_chunks_reconstruction_counterexample :
    c2Text.length > 10 ∧
    ((createChunks c2Text 10 2 true).map
        (fun c => c.content.drop c.overlap_size)).flatten ≠ c2Text := by
  exact ⟨by decide, by decide⟩

/-- Witness for C2 (amended) at a concrete 24-character text with
`chunk_size = 10`, `overlap_size = 3`. -/
theorem create_chunks_reconstruction_witness :
    ((createChunks "The cat sat. The dog ran".data 10 3 false).map
        (fun c => c.content.drop c.overlap_size)).flatten =
      "The cat sat. The dog ran".data :=
  (create_chunks_reconstruction "The cat sat. The dog ran".data 10 3
    (by norm_num) (by norm_num)).2

/-! ### C5 — once `should_proceed` is false, no AI stage executes -/

theorem assessQualityNode_skip (env : PipeEnv) (s : WState)
    (h : s.should_proceed = false) : assessQualityNode env s = s := by
  simp [assessQualityNode, h]

theorem classifyContentNode_skip (env : PipeEnv) (s : WState)
    (h : s.should_proceed = false) : classifyContentNode env s = s := by
  simp [classifyContentNode, h]

theorem extractTextNode_skip (env : PipeEnv) (s : WState)
    (h : s.should_proceed = false) : extractTextNode env s = s := by
  simp [extractTextNode, h]

theorem assessQualityNode_sp (env : PipeEnv) (s : WState) :
    (assessQualityNode env s).should_proceed = s.should_proceed := by
  unfold assessQualityNode
  repeat' split
  all_goals rfl

theorem classifyContentNode_sp (env : PipeEnv) (s : WState) :
    (classifyContentNode env s).should_proceed = s.should_proceed := by
  unfold classifyContentNode
  repeat' split
  all_goals rfl

theorem preprocessImageNode_sp (env : PipeEnv) (s : WState) :
    (preprocessImageNode env s).should_proceed = s.should_proceed := by
  unfold preprocessImageNode
  repeat' split
  all_goals rfl

theorem extractTextNode_sp (env : PipeEnv) (s : WState) :
    (extractTextNode env s).should_proceed = s.should_proceed := by
  unfold extractTextNode
  repeat' split
  all_goals rfl

theorem generateSummaryNode_sp (env : PipeEnv) (s : WState) :
    (generateSummaryNode env s).should_proceed = s.should_proceed := by
  unfold generateSummaryNode
  repeat' split
  all_goals rfl

theorem generateExplanationNode_sp (env : PipeEnv) (s : WState) :
    (generateExplanationNode env s).should_proceed = s.should_proceed := by
  unfold generateExplanationNode
  repeat' split
  all_goals rfl

theorem generateQuizNode_sp (env : PipeEnv) (s : WState) :
    (generateQuizNode env s).should_proceed = s.should_proceed := by
  unfold generateQuizNode
  repeat' split
  all_goals rfl

theorem finalizeResultsNode_sp (clock : ℚ) (s : WState) :
    (finalizeResultsNode clock s).should_proceed = s.should_proceed := by
  unfold finalizeResultsNode
  split <;> rfl

theorem routeProcessingNode_sp_false (s : WState)
    (h : s.should_proceed = false) :
    (routeProcessingNode s).should_proceed = false := by
  by_cases hlow : s.quality_classification = some ImageQuality.low
  · cases hq : s.quality_score with
    | none => simp [routeProcessingNode, routeBody, hlow, hq, h]
    | some q =>
      by_cases h5 : q < SCORE_FLOOR <;>
        simp [routeProcessingNode, routeBody, hlow, hq, h5, h]
  · cases hq : s.quality_score with
    | none => simp [routeProcessingNode, routeBody, hlow, hq, h]
    | some q =>
      by_cases hthr : q < QUALITY_THRESHOLD <;>
        by_cases h5 : q < SCORE_FLOOR <;>
          simp [routeProcessingNode, routeBody, hlow, hq, hthr, h5, h]

theorem shouldContinue_ne_stop (s : WState)
    (h : shouldContinueProcessing s ≠ ContinueDecision.stop) :
    s.should_proceed = true := by
  unfold shouldContinueProcessing at h
  cases hb : s.should_proceed with
  | false => simp [hb] at h
  | true => rfl

/-- The inductive core of C5: assuming the entry invariant (the state is
live, or the node is one of the three that can legitimately see a dead
state), every trace entry whose input state has `should_proceed = false`
sits at `assess`, `classify` or `route`. -/
theorem runGo_false_entries (env : PipeEnv) (clock : ℚ) :
    ∀ (fuel : Nat) (n : NodeId) (s : WState),
      (s.should_proceed = true ∨ n = NodeId.assess ∨ n = NodeId.classify ∨
        n = NodeId.route) →
      ∀ (n2 : NodeId) (s2 : WState), (n2, s2) ∈ runGo env clock fuel n s →
        s2.should_proceed = false →
        (n2 = NodeId.assess ∨ n2 = NodeId.classify ∨ n2 = NodeId.route) := by
  intro fuel
  induction fuel with
  | zero =>
    intro n s hinv n2 s2 hmem hfalse
    simp [runGo] at hmem
  | succ m ih =>
    intro n s hinv n2 s2 hmem hfalse
    simp only [runGo] at hmem
    rcases List.mem_cons.mp hmem with heq | hmemtail
    · obtain ⟨hn, hs⟩ := Prod.mk.injEq .. ▸ heq
      subst hn
      subst hs
      rcases hinv with hlive | hset
      · rw [hlive] at hfalse
        exact absurd hfalse (by simp)
      · exact hset
    · cases hnn : nextNode n (applyNode env clock n s) with
      | none =>
        rw [hnn] at hmemtail
        simp at hmemtail
      | some n3 =>
        rw [hnn] at hmemtail
        refine ih n3 (applyNode env clock n s) ?_ n2 s2 hmemtail hfalse
        cases n with
        | validate =>
          simp only [nextNode] at hnn
          injection hnn with hnn
          subst hnn
          right; left; rfl
        | assess =>
          simp only [nextNode] at hnn
          injection hnn with hnn
          subst hnn
          right; right; left; rfl
        | classify =>
          simp only [nextNode] at hnn
          injection hnn with hnn
          subst hnn
          right; right; right; rfl
        | route =>
          left
          simp only [nextNode] at hnn
          have hne : shouldContinueProcessing
              (applyNode env clock NodeId.route s) ≠ ContinueDecision.stop := by
            intro hc
            rw [hc] at hnn
            exact Option.noConfusion hnn
          exact shouldContinue_ne_stop _ hne
        | preprocess =>
          left
          have hlive : s.should_proceed = true := by
            rcases hinv with h | h | h | h
            · exact h
            all_goals exact absurd h (by simp)
          simp only [applyNode]
          rw [preprocessImageNode_sp]
          exact hlive
        | extract =>
          left
          have hlive : s.should_proceed = true := by
            rcases hinv with h | h | h | h
            · exact h
            all_goals exact absurd h (by simp)
          simp only [applyNode]
          rw [extractTextNode_sp]
          exact hlive
        | genSummary =>
          left
          have hlive : s.should_proceed = true := by
            rcases hinv with h | h | h | h
            · exact h
            all_goals exact absurd h (by simp)
          simp only [applyNode]
          rw [generateSummaryNode_sp]
          exact hlive
        | genExplanation =>
          left
          have hlive : s.should_proceed = true := by
            rcases hinv with h | h | h | h
            · exact h
            all_goals exact absurd h (by simp)
          simp only [applyNode]
          rw [generateExplanationNode_sp]
          exact hlive
        | genQuiz =>
          left
          have hlive : s.should_proceed = true := by
            rcases hinv with h | h | h | h
            · exact h
            all_goals exact absurd h (by simp)
          simp only [applyNode]
          rw [generateQuizNode_sp]
          exact hlive
        | finalize =>
          simp only [nextNode] at hnn
          exact Option.noConfusion hnn

/-- C5: in every run of the pipeline graph from a live initial state, any
node that executes on a state with `should_proceed = false` is one of
`assess_quality`, `classify_content` or `route_processing` — the
preprocessing, extraction and generation stages are all routed away by the
conditional edges — and the two AI-calling stages among them
(`assess_quality`, `classify_content`), as well as `extract_text`, pass a
dead state through completely unchanged, consulting no oracle. -/
theorem pipeline_stops_after_should_proceed_false (env : PipeEnv) (clock : ℚ)
    (s0 : WState) (hs0 : s0.should_proceed = true) :
    ∀ (n : NodeId) (s : WState), (n, s) ∈ runTrace env clock s0 →
      s.should_proceed = false →
      (n = NodeId.assess ∨ n = NodeId.classify ∨ n = NodeId.route) ∧
      assessQualityNode env s = s ∧
      classifyContentNode env s = s ∧
      extractTextNode env s = s := by
  intro n s hmem hfalse
  exact ⟨runGo_false_entries env clock 10 NodeId.validate s0 (Or.inl hs0)
      n s hmem hfalse,
    assessQualityNode_skip env s hfalse,
    classifyContentNode_skip env s hfalse,
    extractTextNode_skip env s hfalse⟩

/-- A concrete environment whose path-open fails, so that `validate` kills
the run and the dead state then flows through `assess`/`classify`/`route`. -/
def c5Env : PipeEnv := exEnv

def c5Init : WState := initState "missing.png".data "user1".data 0

/-- Witness for C5: with a failing image load, the trace contains the
`assess` entry carrying the dead validated state, and the theorem applies
to it. -/
theorem pipeline_stops_after_should_proceed_false_witness :
    ((NodeId.assess, validateImageNode c5Env c5Init) ∈
        runTrace c5Env 0 c5Init) ∧
    (NodeId.assess = NodeId.assess ∨ NodeId.assess = NodeId.classify ∨
        NodeId.assess = NodeId.route) ∧
      assessQualityNode c5Env (validateImageNode c5Env c5Init) =
        validateImageNode c5Env c5Init ∧
      classifyContentNode c5Env (validateImageNode c5Env c5Init) =
        validateImageNode c5Env c5Init ∧
      extractTextNode c5Env (validateImageNode c5Env c5Init) =
        validateImageNode c5Env c5Init := by
  have hmem : (NodeId.assess, validateImageNode c5Env c5Init) ∈
      runTrace c5Env 0 c5Init :=
    List.Mem.tail _ (List.Mem.head _)
  exact ⟨hmem,
    pipeline_stops_after_should_proceed_false c5Env 0 c5Init rfl
      NodeId.assess (validateImageNode c5Env c5Init) hmem rfl⟩

end StudyHelper
